import Mathlib

/-!
# CloudWatch output plugin: batching, dimensions, rollup, retry, flush control, shutdown

A shallow embedding of `plugins/outputs/cloudwatch/cloudwatch.go` and of `Validate`
in `plugins/outputs/cloudwatch/config.go`.

* Go slices are lists. `make([]T, 0, n)` is the empty list: the capacity is an
  allocation hint and has no counterpart here.
* Go `int` and `time.Duration` values are integers (`Int`). The running size of a
  batch is a sum of payload sizes of datums held in memory, far below `2^63`, so
  the additions are not reduced modulo `2^64`.
* `time.Now()` is an input: every event carries the clock readings the code takes
  while it handles the event. A `time.Time` is the number of nanoseconds since a
  fixed origin, `t.Sub(u)` is `t - u`.
* `payload(datum)` is defined in another file of the package; it is a parameter
  `payload : δ → Int` of the accumulator, and the datum type `δ` is arbitrary.
* `publishJitter` is defined in another file of the package and draws a random
  number; each call of it is a parameter, the result as a function of the argument.
* The outcomes of the calls of `PutMetricData`, the clock readings and the fill
  level of the batch channel are inputs. `WriteToCloudWatch` is run on its own: no
  other worker touches `c.retries` during the call.
* The workers run concurrently and meet at the channels only. For `Shutdown` an
  execution is the sequence of their actions on the channels (queue a datum, receive
  a datum, tick, drain the batch channel) between the polls of `Shutdown`. A send on
  a full `datumBatchChan` blocks in the code; here it always completes, so the
  executions here include those of the code.
-/

namespace CloudWatch

/-! ## Constants -/

/-- The constant `bottomLinePayloadSizeInBytesToPublish`. -/
def bottomLinePayloadSizeInBytesToPublish : Int := 999000

/-- The constant `MaxDimensions`. -/
def MaxDimensions : Nat := 30

/-! ## Batch accumulator -/

/-- The struct `MetricDatumBatch`. -/
structure MetricDatumBatch (δ : Type) where
  MaxDatumsPerCall : Int
  Partition : List δ
  BeginTime : Int
  Size : Int
  perRequestConstSize : Int
deriving DecidableEq, Repr

/-- The size `perRequestConstSize` computed by `startRoutines`:
`overallConstPerRequestSize + len(c.config.Namespace) + namespaceOverheads`.
The two constants are declared in another file of the package and are arguments. -/
def perRequestConstSize (overallConstPerRequestSize namespaceLen namespaceOverheads : Int) : Int :=
  overallConstPerRequestSize + namespaceLen + namespaceOverheads

/-- The constructor `newMetricDatumBatch`; `now` is the reading of `time.Now()`. -/
def newMetricDatumBatch {δ : Type} (maxDatumsPerCall perRequestConstSize now : Int) :
    MetricDatumBatch δ :=
  { MaxDatumsPerCall := maxDatumsPerCall
    Partition := []
    BeginTime := now
    Size := perRequestConstSize
    perRequestConstSize := perRequestConstSize }

/-- The method `clear`; `now` is the reading of `time.Now()`. -/
def MetricDatumBatch.clear {δ : Type} (b : MetricDatumBatch δ) (now : Int) : MetricDatumBatch δ :=
  { b with Partition := [], BeginTime := now, Size := b.perRequestConstSize }

/-- The method `isFull`. -/
def MetricDatumBatch.isFull {δ : Type} (b : MetricDatumBatch δ) : Bool :=
  decide ((b.Partition.length : Int) ≥ b.MaxDatumsPerCall) ||
    decide (b.Size ≥ bottomLinePayloadSizeInBytesToPublish)

/-- The method `timeToPublish`; `now` is the reading of `time.Now()`. -/
def timeToPublish {δ : Type} (forceFlushInterval : Int) (b : MetricDatumBatch δ) (now : Int) :
    Bool :=
  decide (b.Partition.length > 0) && decide (now - b.BeginTime ≥ forceFlushInterval)

/-- What the `select` of `pushMetricDatum` can receive before shutdown: a datum from
`metricChan` (`now` is the clock reading `clear` takes if the batch is handed off), or
a tick (`now` is the reading in `timeToPublish`, `clearNow` the one in `clear`). -/
inductive Event (δ : Type) where
  | datum (d : δ) (now : Int)
  | tick (now clearNow : Int)
deriving DecidableEq, Repr

/-- One send `c.datumBatchChan <- c.metricDatumBatch.Partition`. The value sent is
`batch.Partition`; the record keeps the whole batch as it is at the send and the
clock reading of the event, which the channel does not carry. -/
structure HandOff (δ : Type) where
  batch : MetricDatumBatch δ
  now : Int
deriving DecidableEq, Repr

/-- The part of the `CloudWatch` struct the accumulator works on: the batch it
holds and every send on `datumBatchChan` so far, oldest first. -/
structure Accumulator (δ : Type) where
  metricDatumBatch : MetricDatumBatch δ
  datumBatchChan : List (HandOff δ)
deriving DecidableEq, Repr

/-- The accumulator right after `startRoutines`. -/
def startRoutines {δ : Type} (maxDatumsPerCall perRequestConstSize now : Int) : Accumulator δ :=
  { metricDatumBatch := newMetricDatumBatch maxDatumsPerCall perRequestConstSize now
    datumBatchChan := [] }

/-- One iteration of the loop of `pushMetricDatum`. -/
def pushMetricDatumStep {δ : Type} (payload : δ → Int) (forceFlushInterval : Int)
    (c : Accumulator δ) : Event δ → Accumulator δ
  | .datum d now =>
    let b : MetricDatumBatch δ :=
      { c.metricDatumBatch with
        Partition := c.metricDatumBatch.Partition ++ [d]
        Size := c.metricDatumBatch.Size + payload d }
    if b.isFull then
      { metricDatumBatch := b.clear now
        datumBatchChan := c.datumBatchChan ++ [{ batch := b, now := now }] }
    else
      { c with metricDatumBatch := b }
  | .tick now clearNow =>
    if timeToPublish forceFlushInterval c.metricDatumBatch now then
      { metricDatumBatch := c.metricDatumBatch.clear clearNow
        datumBatchChan := c.datumBatchChan ++ [{ batch := c.metricDatumBatch, now := now }] }
    else
      c

/-- The loop of `pushMetricDatum` over the events it receives until the shutdown
case ends it. -/
def pushMetricDatum {δ : Type} (payload : δ → Int) (forceFlushInterval : Int)
    (c : Accumulator δ) (events : List (Event δ)) : Accumulator δ :=
  events.foldl (pushMetricDatumStep payload forceFlushInterval) c

/-- The datums of an event sequence, in arrival order. -/
def received {δ : Type} : List (Event δ) → List δ
  | [] => []
  | .datum d _ :: es => d :: received es
  | .tick _ _ :: es => received es

/-- The batches sent on `datumBatchChan`, oldest first. -/
def sentBatches {δ : Type} (c : Accumulator δ) : List (List δ) :=
  c.datumBatchChan.map (fun h => h.batch.Partition)

/-! ### Invariants of the accumulator loop -/

/-- Count invariant: the held batch is below the maximum, every sent batch has
between one and the maximum number of datums. -/
def CountInv {δ : Type} (M : Int) (c : Accumulator δ) : Prop :=
  c.metricDatumBatch.MaxDatumsPerCall = M ∧
  (c.metricDatumBatch.Partition.length : Int) < M ∧
  ∀ h ∈ c.datumBatchChan, 1 ≤ h.batch.Partition.length ∧ (h.batch.Partition.length : Int) ≤ M

/-- Size invariant: the held batch and its per-request constant are at most the
ceiling, and the held batch and every sent batch exceed the ceiling by at most
the payload of their last datum. -/
def SizeInv {δ : Type} (payload : δ → Int) (c : Accumulator δ) : Prop :=
  c.metricDatumBatch.perRequestConstSize ≤ bottomLinePayloadSizeInBytesToPublish ∧
  c.metricDatumBatch.Size ≤ bottomLinePayloadSizeInBytesToPublish ∧
  (c.metricDatumBatch.Partition = [] ∨
    ∃ last, c.metricDatumBatch.Partition.getLast? = some last ∧
      c.metricDatumBatch.Size ≤ bottomLinePayloadSizeInBytesToPublish + payload last) ∧
  ∀ h ∈ c.datumBatchChan, ∃ last, h.batch.Partition.getLast? = some last ∧
    h.batch.Size ≤ bottomLinePayloadSizeInBytesToPublish + payload last

/-- Cause invariant: every sent batch is non-empty and was full, or old enough,
when it was sent. -/
def CauseInv {δ : Type} (forceFlushInterval : Int) (c : Accumulator δ) : Prop :=
  ∀ h ∈ c.datumBatchChan,
    h.batch.Partition ≠ [] ∧
    (((h.batch.Partition.length : Int) ≥ h.batch.MaxDatumsPerCall ∨
        h.batch.Size ≥ bottomLinePayloadSizeInBytesToPublish) ∨
      h.now - h.batch.BeginTime ≥ forceFlushInterval)

/-! ## Dimensions -/

/-- The SDK struct `cloudwatch.Dimension`, with the two fields the plugin sets. -/
structure Dimension where
  Name : String
  Value : String
deriving DecidableEq, Repr

/-- A Go `map[string]string`, as an association list. A key is bound to the value of
its first pair; pairs behind it with the same key are not part of the map. -/
abbrev TagMap := List (String × String)

/-- The lookup `v, ok := tagMap[k]`. -/
def TagMap.get? : TagMap → String → Option String
  | [], _ => none
  | (k', v) :: m, k => if k = k' then some v else TagMap.get? m k

/-- The lookup `tagMap[k]`, which is the empty string for an absent key. -/
def TagMap.get (m : TagMap) (k : String) : String :=
  (TagMap.get? m k).getD ""

/-- The keys of the map, each once. `for k := range tagMap` visits them in an
unspecified order; `sortedTagKeys` sorts them, so the order here is immaterial
(see `sortedTagKeys_perm`). -/
def TagMap.keys (m : TagMap) : List String :=
  (m.map Prod.fst).dedup

/-- The library call `sort.Strings`: ascending order of Go strings, which for
UTF-8 text is the lexicographic order of the code points, the order `≤` of `String`
(see `sortStrings_sorted`). The keys are distinct, so the result does not depend on
the sorting algorithm. -/
def sortStrings (keys : List String) : List String :=
  keys.insertionSort (fun a b => a.toList ≤ b.toList)

/-- The function `sortedTagKeys`. -/
def sortedTagKeys (tagMap : TagMap) : List String :=
  sortStrings (TagMap.keys tagMap)

/-- The loop `for _, k := range sortedKeys` of `BuildDimensions`. -/
def buildDimensionsLoop (tagMap : TagMap) : List String → List Dimension → List Dimension
  | [], dimensions => dimensions
  | k :: ks, dimensions =>
    if dimensions.length ≥ MaxDimensions then dimensions
    else if k = "host" then buildDimensionsLoop tagMap ks dimensions
    else if TagMap.get tagMap k = "" then buildDimensionsLoop tagMap ks dimensions
    else buildDimensionsLoop tagMap ks
      (dimensions ++ [{ Name := k, Value := TagMap.get tagMap k }])

/-- The function `BuildDimensions` (the log line has no effect on the result). -/
def BuildDimensions (tagMap : TagMap) : List Dimension :=
  let dimensions : List Dimension :=
    match TagMap.get? tagMap "host" with
    | some host => if host ≠ "" then [{ Name := "host", Value := host }] else []
    | none => []
  buildDimensionsLoop tagMap (sortedTagKeys tagMap) dimensions

/-- Reference definition, first part: the `host` entry, present only when the map
has `host` with a non-empty value. -/
def hostEntry (tagMap : TagMap) : List Dimension :=
  match TagMap.get? tagMap "host" with
  | some host => if host = "" then [] else [{ Name := "host", Value := host }]
  | none => []

/-- Reference definition, second part: the names of the other tags that have
non-empty values, in ascending order. -/
def otherTagNames (tagMap : TagMap) : List String :=
  sortStrings ((TagMap.keys tagMap).filter
    (fun k => decide (k ≠ "host") && decide (TagMap.get tagMap k ≠ "")))

/-- Reference definition of `BuildDimensions`, following the specification: the `host`
entry, then the other non-empty tags in ascending order of name, each with the map's
value, truncated to the first 30 entries. -/
def BuildDimensionsRef (tagMap : TagMap) : List Dimension :=
  (hostEntry tagMap ++
    (otherTagNames tagMap).map
      (fun k => ({ Name := k, Value := TagMap.get tagMap k } : Dimension))).take 30

/-! ## Rollup -/

/-- The loop that fills `rawDimensionMap` in `ProcessRollup`: a later dimension
overwrites an earlier one of the same name. The map is only ever looked up. -/
def rawDimensionMap (rawDimension : List Dimension) : String → Option String :=
  rawDimension.foldl (fun m v => fun k => if k = v.Name then some v.Value else m k)
    (fun _ => none)

/-- The inner loop of `ProcessRollup` over the names of one target: `i` counts the
entries of `extraDimensions` filled so far, `extraDimensions` holds them (the slots
from `i` on are still nil); the loop breaks at the first name the map lacks. -/
def rollupLoop (rawDimensionMap : String → Option String) :
    List String → Nat → List Dimension → Nat × List Dimension
  | [], i, extraDimensions => (i, extraDimensions)
  | targetDimensionKey :: rest, i, extraDimensions =>
    match rawDimensionMap targetDimensionKey with
    | none => (i, extraDimensions)
    | some val =>
      rollupLoop rawDimensionMap rest (i + 1)
        (extraDimensions ++ [{ Name := targetDimensionKey, Value := val }])

/-- The method `ProcessRollup`; `rollupDimensions` is `c.config.RollupDimensions`.
`reflect.DeepEqual` of two slices of dimensions is equality of the lists; the raw
list is a non-nil slice, as `BuildDimensions` returns it. `extraDimensions` is only
compared and appended when all its slots are filled. -/
def ProcessRollup (rollupDimensions : List (List String)) (rawDimension : List Dimension) :
    List (List Dimension) :=
  let m := rawDimensionMap rawDimension
  rollupDimensions.foldl
    (fun fullDimensionsList targetDimensions =>
      let r := rollupLoop m targetDimensions 0 []
      if r.1 = targetDimensions.length ∧ ¬ rawDimension = r.2 then
        fullDimensionsList ++ [r.2]
      else fullDimensionsList)
    [rawDimension]

/-- Reference definition: the base list's value for a name. -/
def baseValue (base : List Dimension) (name : String) : String :=
  match base.find? (fun d => decide (d.Name = name)) with
  | some d => d.Value
  | none => ""

/-- Reference definition: the projection of the base list on a spec, defined when
all names of the spec occur in the base list; it lists the spec's names in the
spec's order, each with the base list's value. -/
def project (base : List Dimension) (spec : List String) : Option (List Dimension) :=
  if spec.all (fun n => decide (n ∈ base.map (fun d => d.Name))) then
    some (spec.map (fun n => { Name := n, Value := baseValue base n }))
  else none

/-- Reference definition of `ProcessRollup`, following the specification: the base
list, then in the order of the specs one variant for each spec whose projection is
defined and differs from the base list. -/
def ProcessRollupRef (rollupDimensions : List (List String)) (base : List Dimension) :
    List (List Dimension) :=
  base :: rollupDimensions.filterMap (fun spec =>
    match project base spec with
    | some v => if v = base then none else some v
    | none => none)

/-- The inner loop `for _, u := range uniqueLists` of `GetUniqueRollupList`. The
range runs over the slice as it is when the loop starts (first list argument);
`count` and `uniqueLists` are the variables of the same names.
The loop only compares entries, with `reflect.DeepEqual`, which is the equality of
the type `α` of entries: `List String` for a `[]string` (`DeepEqual` tells a nil
slice from an empty one; `Option (List String)` keeps the two apart). -/
def uniqueInnerLoop {α : Type} [DecidableEq α] (inputList : α) :
    List α → Nat → List α → List α
  | [], _, uniqueLists => uniqueLists
  | u :: us, count, uniqueLists =>
    if inputList = u then uniqueLists
    else
      let count := count + 1
      let uniqueLists :=
        if count = uniqueLists.length then uniqueLists ++ [inputList] else uniqueLists
      uniqueInnerLoop inputList us count uniqueLists

/-- The function `GetUniqueRollupList` (the log line has no effect on the result). -/
def GetUniqueRollupList {α : Type} [DecidableEq α] (inputLists : List α) : List α :=
  let uniqueLists : List α :=
    match inputLists with
    | [] => []
    | first :: _ => [first]
  inputLists.foldl
    (fun uniqueLists inputList => uniqueInnerLoop inputList uniqueLists 0 uniqueLists)
    uniqueLists

/-- Reference definition: the list with every later repeat of an entry removed,
that is, the entries at the positions where an entry occurs for the first time. -/
def firstOccurrences {α : Type} [DecidableEq α] (xs : List α) : List α :=
  (xs.enum.filter (fun p => decide (p.2 ∉ xs.take p.1))).map Prod.snd

/-- The tag map of the dimension-limit scenario: `host` and 34 other tags, all with
non-empty values. -/
def scenarioTags : TagMap :=
  [("t15", "v15"), ("t12", "v12"), ("t06", "v06"), ("t22", "v22"), ("t10", "v10"),
     ("t29", "v29"), ("t14", "v14"), ("t17", "v17"), ("t02", "v02"), ("t26", "v26"),
     ("t21", "v21"), ("t24", "v24"), ("t28", "v28"), ("t11", "v11"), ("t04", "v04"),
     ("t05", "v05"), ("t13", "v13"), ("t31", "v31"), ("t27", "v27"), ("t32", "v32"),
     ("t25", "v25"), ("t07", "v07"), ("t08", "v08"), ("t18", "v18"), ("t33", "v33"),
     ("t34", "v34"), ("t01", "v01"), ("t20", "v20"), ("t03", "v03"), ("t19", "v19"),
     ("host", "h"), ("t30", "v30"), ("t23", "v23"), ("t09", "v09"), ("t16", "v16")]

/-- What one round of the outer loop of `GetUniqueRollupList` amounts to when
`uniqueLists` is not empty (see `uniqueInnerLoop_start`). -/
def appendIfNew {α : Type} [DecidableEq α] (uniqueLists : List α) (inputList : α) : List α :=
  if inputList ∈ uniqueLists then uniqueLists else uniqueLists ++ [inputList]

/-! ## Drop-original filter -/

/-- The constant `dropOriginalWildcard`. -/
def dropOriginalWildcard : String := "*"

/-- The configuration `DropOriginConfigs`, a Go `map[string][]string`, as an
association list. A key is bound to the list of its first pair; pairs behind it with
the same key are not part of the map. -/
abbrev DropOriginConfigs := List (String × List String)

/-- The lookup `v, ok := input[k]`. -/
def DropOriginConfigs.get? : DropOriginConfigs → String → Option (List String)
  | [], _ => none
  | (k', v) :: m, k => if k = k' then some v else DropOriginConfigs.get? m k

/-- The keys of the map, each once; `range input` visits them in an unspecified
order, and each round writes only the entry of its own key. -/
def DropOriginConfigs.keys (m : DropOriginConfigs) : List String :=
  (m.map Prod.fst).dedup

/-- The inner loop of `GetDroppingDimensionMap`: the set `result[k]` after the
dimensions of `v` are added to the empty set. A `map[string]struct{}` is only
written and looked up, and is the function that tells whether a key is present. -/
def dimensionSet (v : List String) : String → Bool :=
  v.foldl (fun set dimension => fun x => decide (x = dimension) || set x) (fun _ => false)

/-- The function `GetDroppingDimensionMap`. The result, a
`map[string]map[string]struct{}`, is only written and looked up, and is the function
from a key to its set, if the key is present. -/
def GetDroppingDimensionMap (input : DropOriginConfigs) : String → Option (String → Bool) :=
  (DropOriginConfigs.keys input).foldl
    (fun result k =>
      let v := (DropOriginConfigs.get? input k).getD []
      fun x => if x = k then some (dimensionSet v) else result x)
    (fun _ => none)

/-- The method `IsDropping`; `droppingOriginMetrics` is the field of that name. -/
def IsDropping (droppingOriginMetrics : String → Option (String → Bool))
    (metricName dimensionName : String) : Bool :=
  match droppingOriginMetrics metricName with
  | some droppingDimensions =>
    if droppingDimensions dropOriginalWildcard then true
    else droppingDimensions dimensionName
  | none => false

/-! ## Durations -/

/-- The constant `time.Millisecond`, in nanoseconds. -/
def millisecond : Int := 1000000

/-- The constant `time.Second`, in nanoseconds. -/
def second : Int := 1000000000

/-- The constant `time.Minute`, in nanoseconds. -/
def minute : Int := 60000000000

/-- The method `Duration.Milliseconds`: the integer millisecond count, truncated
toward zero. -/
def Milliseconds (d : Int) : Int :=
  Int.tdiv d 1000000

/-! ## Submit with retry -/

/-- The constant `defaultRetryCount`. -/
def defaultRetryCount : Nat := 5

/-- The constant `backoffRetryBase`, 200 ms in nanoseconds. -/
def backoffRetryBase : Int := 200 * millisecond

/-- What one call `c.svc.PutMetricData(params)` returns, as far as
`WriteToCloudWatch` tells the cases apart: no error; an error that is not an
`awserr.Error`; an `awserr.Error` whose code is `ErrCodeLimitExceededFault`, or
`ErrCodeInternalServiceFault`, or any other code. -/
inductive PutMetricDataResult where
  | success
  | notAwsErr
  | limitExceededFault
  | internalServiceFault
  | otherCode (code : String)
deriving DecidableEq, Repr

/-- The duration `d` of `backoffSleep` before the jitter is applied. The counter
`c.retries` starts at 0 and is only incremented or reset to 0, so it is a natural
number; `1<<c.retries` is evaluated only for a counter of at most 5. -/
def backoffBase (retries : Nat) : Int :=
  if retries ≤ defaultRetryCount then backoffRetryBase * 2 ^ retries else 1 * minute

/-- The method `backoffSleep`. `publishJitter` stands for this call of the function
of that name, which is defined in another file of the package: its random result as
a function of its argument. The result is the duration passed to `time.Sleep` and
the new value of `c.retries`. -/
def backoffSleep (publishJitter : Int → Int) (retries : Nat) : Int × Nat :=
  let d := backoffBase retries
  let d := Int.tdiv d 2 + publishJitter (Int.tdiv d 2)
  (d, retries + 1)

/-- What one call of `WriteToCloudWatch` does: the counter `c.retries` when it
returns, the number of calls of `PutMetricData`, the durations slept in order, and
whether `err` is non-nil after the loop (the batch is dropped with a log line). -/
structure WriteResult where
  retries : Nat
  attempts : Nat
  sleeps : List Int
  failed : Bool
deriving DecidableEq, Repr

/-- The call `c.backoffSleep()` inside the loop of `WriteToCloudWatch`, after a
failed attempt. -/
def backoffStep (publishJitter : Int → Int) (s : WriteResult) : WriteResult :=
  { s with
    retries := (backoffSleep publishJitter s.retries).2
    sleeps := s.sleeps ++ [(backoffSleep publishJitter s.retries).1]
    failed := true }

/-- The loop `for i := 0; i < defaultRetryCount; i++` of `WriteToCloudWatch`. The
first argument is `defaultRetryCount - i`, the number of rounds left; `svc i` is the
outcome of the attempt in round `i`, `publishJitter i` the jitter call of the
backoff in round `i`. The cases that recurse are the ones that `continue`, the
others fall through to the `break`. -/
def writeLoop (svc : Nat → PutMetricDataResult) (publishJitter : Nat → Int → Int) :
    Nat → Nat → WriteResult → WriteResult
  | 0, _, s => s
  | left + 1, i, s =>
    let s := { s with attempts := s.attempts + 1 }
    match svc i with
    | .success => { s with retries := 0, failed := false }
    | .notAwsErr => writeLoop svc publishJitter left (i + 1) (backoffStep (publishJitter i) s)
    | .limitExceededFault =>
      writeLoop svc publishJitter left (i + 1) (backoffStep (publishJitter i) s)
    | .internalServiceFault =>
      writeLoop svc publishJitter left (i + 1) (backoffStep (publishJitter i) s)
    | .otherCode _ => backoffStep (publishJitter i) s

/-- The method `WriteToCloudWatch`, for one batch, run on its own; `retries` is
`c.retries` at the call. -/
def WriteToCloudWatch (svc : Nat → PutMetricDataResult) (publishJitter : Nat → Int → Int)
    (retries : Nat) : WriteResult :=
  writeLoop svc publishJitter defaultRetryCount 0
    { retries := retries, attempts := 0, sleeps := [], failed := false }

/-- The outcomes of a run in which every failure is a `LimitExceededFault`. -/
def asThrottle (svc : Nat → PutMetricDataResult) : Nat → PutMetricDataResult :=
  fun i => if svc i = .success then .success else .limitExceededFault

/-! ## Configuration -/

/-- The fields of `Config` that `Validate` and the flush controller read. -/
structure Config where
  Region : String
  Namespace : String
  ForceFlushInterval : Int
  MaxDatumsPerCall : Int
  MaxValuesPerDatum : Int
deriving DecidableEq, Repr

/-- The method `Validate`: `none` is the nil error, `some msg` the error returned. -/
def Validate (c : Config) : Option String :=
  if c.Region = "" then some "'region' must be set"
  else if c.Namespace = "" then some "'namespace' must be set"
  else if c.ForceFlushInterval < millisecond then
    some "'force_flush_interval' must be at least 1 millisecond"
  else none

/-! ## Flush controller -/

/-- The function `getFirstPushMs`. `publishJitter` stands for the call of the
function of that name, `nowMs` for `time.Now().UnixMilli()`. The remainder `%`
truncates toward zero; a zero divisor is a run-time panic, the result `none`. -/
def getFirstPushMs (interval : Int) (publishJitter : Int → Int) (nowMs : Int) : Option Int :=
  let jitter := publishJitter interval
  if Milliseconds interval = 0 then none
  else
    let nextMs := nowMs - Int.tmod nowMs (Milliseconds interval) + Milliseconds jitter
    if nextMs < nowMs then some (nextMs + Milliseconds interval) else some nextMs

/-- The local variables of `publish` that live across rounds of its loop. -/
structure PublishState where
  currentInterval : Int
  nextMs : Int
  bufferFullOccurred : Bool
deriving DecidableEq, Repr

/-- What one round of the loop of `publish` reads: `time.Now().UnixMilli()` and the
result of `c.metricDatumBatchFull()`. -/
structure PublishInput where
  nowMs : Int
  batchFull : Bool
deriving DecidableEq, Repr

/-- The outcome of one round of the loop of `publish`: the variables after it,
whether `pushMetricDatumBatch` was called, and the duration slept. -/
structure PublishRound where
  state : PublishState
  shouldPublish : Bool
  sleep : Int
deriving DecidableEq, Repr

/-- The adaptation at the top of a round of `publish`. `d.Seconds()` is a float, the
whole seconds plus the remaining nanoseconds over `1e9`; that sum is above 1 exactly
when `d` is more than `10^9` nanoseconds and below 1 exactly when `d` is less, so
the two tests are comparisons of integers. The divisions truncate toward zero. -/
def publishAdapt (s : PublishState) (inp : PublishInput) : PublishState :=
  if inp.batchFull then
    if !s.bufferFullOccurred then
      let s := { s with bufferFullOccurred := true }
      if s.currentInterval > second then
        let currentInterval := Int.tdiv s.currentInterval 2
        let currentInterval := if currentInterval < second then 1 * second else currentInterval
        { s with
          currentInterval := currentInterval
          nextMs := inp.nowMs + Int.tdiv (s.nextMs - inp.nowMs) 2 }
      else s
    else s
  else s

/-- One round of the loop of `publish`, after the shutdown check. -/
def publishRound (forceFlushInterval : Int) (s : PublishState) (inp : PublishInput) :
    PublishRound :=
  let s := publishAdapt s inp
  let shouldPublish := decide (inp.nowMs ≥ s.nextMs)
  let s :=
    if inp.nowMs ≥ s.nextMs then
      let currentInterval :=
        if !s.bufferFullOccurred then forceFlushInterval else s.currentInterval
      { s with
        currentInterval := currentInterval
        nextMs := s.nextMs + Milliseconds currentInterval }
    else s
  let s := if shouldPublish then { s with bufferFullOccurred := false } else s
  { state := s
    shouldPublish := shouldPublish
    sleep :=
      if s.nextMs - inp.nowMs > Milliseconds second then second
      else (s.nextMs - inp.nowMs) * millisecond }

/-- The variables of `publish` when its loop starts; `none` when `getFirstPushMs`
panics. -/
def publishStart (forceFlushInterval : Int) (publishJitter : Int → Int) (nowMs : Int) :
    Option PublishState :=
  match getFirstPushMs forceFlushInterval publishJitter nowMs with
  | some nextMs =>
    some { currentInterval := forceFlushInterval, nextMs := nextMs, bufferFullOccurred := false }
  | none => none

/-- The variables of `publish` after the rounds that read the given inputs, until
the shutdown check ends the loop. -/
def publishLoop (forceFlushInterval : Int) (s : PublishState) (inputs : List PublishInput) :
    PublishState :=
  inputs.foldl (fun s inp => (publishRound forceFlushInterval s inp).state) s

/-- The bound that the interval of `publish` keeps: between the smaller of 1 second
and the configured interval, and the configured interval. -/
def IntervalInv (forceFlushInterval : Int) (s : PublishState) : Prop :=
  min second forceFlushInterval ≤ s.currentInterval ∧ s.currentInterval ≤ forceFlushInterval

/-- The interval after one adaptation in a round that finds the batch channel full
and the flag unset, starting from the interval `currentInterval`. -/
def adaptedInterval (currentInterval : Int) : Int :=
  (publishAdapt { currentInterval := currentInterval, nextMs := 0, bufferFullOccurred := false }
    { nowMs := 0, batchFull := true }).currentInterval

/-- A configuration with the default limits and flush interval (60 s), used in
examples. -/
def defaultConfig : Config :=
  { Region := "us-east-1"
    Namespace := "N"
    ForceFlushInterval := 60000000000
    MaxDatumsPerCall := 1000
    MaxValuesPerDatum := 150 }

/-- Whether the adaptation of a round halves: it changes the interval or the time
of the next wake. -/
def halved (s : PublishState) (inp : PublishInput) : Bool :=
  decide ((publishAdapt s inp).currentInterval ≠ s.currentInterval ∨
    (publishAdapt s inp).nextMs ≠ s.nextMs)

/-- The number of rounds of `publish`, over the given inputs, whose adaptation
halves. -/
def halvings (forceFlushInterval : Int) : PublishState → List PublishInput → Nat
  | _, [] => 0
  | s, inp :: rest =>
    (if halved s inp then 1 else 0) +
      halvings forceFlushInterval (publishRound forceFlushInterval s inp).state rest

/-- No round of `publish`, over the given inputs, calls `pushMetricDatumBatch`. -/
def noPublish (forceFlushInterval : Int) : PublishState → List PublishInput → Bool
  | _, [] => true
  | s, inp :: rest =>
    !(publishRound forceFlushInterval s inp).shouldPublish &&
      noPublish forceFlushInterval (publishRound forceFlushInterval s inp).state rest

/-! ## Shutdown -/

/-- The two channels and the accumulator between them, as `Shutdown` sees them.
`metricChan` holds the datums queued, oldest first. The accumulator records every
send on `datumBatchChan`; `published` counts the sends that `pushMetricDatumBatch`
has received and passed to `c.publisher.Publish`, so the batches still in the channel
are the sends behind the first `published`. -/
structure Pipeline (δ : Type) where
  metricChan : List δ
  accumulator : Accumulator δ
  published : Nat
deriving DecidableEq, Repr

/-- What the workers do while `Shutdown` waits: `ConsumeMetrics` queues a datum;
the `select` of `pushMetricDatum` receives the oldest datum of `metricChan` (`now`
is the clock reading of `clear`), or a tick; `publish` calls `pushMetricDatumBatch`,
which receives every batch on `datumBatchChan` and publishes it. -/
inductive PipelineEvent (δ : Type) where
  | enqueue (d : δ)
  | receive (now : Int)
  | tick (now clearNow : Int)
  | drain
deriving DecidableEq, Repr

/-- The value of `len(c.datumBatchChan)`. -/
def Pipeline.datumBatchChanLen {δ : Type} (p : Pipeline δ) : Nat :=
  p.accumulator.datumBatchChan.length - p.published

/-- The batches handed to the publisher so far, oldest first. -/
def Pipeline.publishedBatches {δ : Type} (p : Pipeline δ) : List (List δ) :=
  (sentBatches p.accumulator).take p.published

/-- One action of a worker. A receive on an empty `metricChan` is not taken; a drain
publishes every batch that is still in `datumBatchChan`. -/
def pipelineStep {δ : Type} (payload : δ → Int) (forceFlushInterval : Int) (p : Pipeline δ) :
    PipelineEvent δ → Pipeline δ
  | .enqueue d => { p with metricChan := p.metricChan ++ [d] }
  | .receive now =>
    match p.metricChan with
    | [] => p
    | d :: rest =>
      { p with
        metricChan := rest
        accumulator := pushMetricDatumStep payload forceFlushInterval p.accumulator (.datum d now) }
  | .tick now clearNow =>
    { p with
      accumulator :=
        pushMetricDatumStep payload forceFlushInterval p.accumulator (.tick now clearNow) }
  | .drain => { p with published := max p.published p.accumulator.datumBatchChan.length }

/-- The actions of the workers, in the order in which they take effect. -/
def pipelineRun {δ : Type} (payload : δ → Int) (forceFlushInterval : Int) (p : Pipeline δ)
    (events : List (PipelineEvent δ)) : Pipeline δ :=
  events.foldl (pipelineStep payload forceFlushInterval) p

/-- The loop `for i := 0; i < 5; i++` of `Shutdown`. The first argument is `5 - i`,
the number of rounds left; `work i` is what the workers do during the sleep of one
second in round `i`. The loop breaks when both channels are empty. -/
def shutdownWait {δ : Type} (payload : δ → Int) (forceFlushInterval : Int)
    (work : Nat → List (PipelineEvent δ)) : Nat → Nat → Pipeline δ → Pipeline δ
  | 0, _, p => p
  | left + 1, i, p =>
    if p.metricChan.length = 0 ∧ p.datumBatchChanLen = 0 then p
    else
      shutdownWait payload forceFlushInterval work left (i + 1)
        (pipelineRun payload forceFlushInterval p (work i))

/-- The method `Shutdown` up to `close(c.shutdownChan)`: the state of the channels
and of the accumulator when the shutdown signal is closed. On that signal
`pushMetricDatum` returns, and the batch it holds is not sent. -/
def Shutdown {δ : Type} (payload : δ → Int) (forceFlushInterval : Int)
    (work : Nat → List (PipelineEvent δ)) (p : Pipeline δ) : Pipeline δ :=
  shutdownWait payload forceFlushInterval work 5 0 p

/-- The datums in the pipeline: in the batches sent, in the batch held by the
accumulator, and in `metricChan`, oldest first. -/
def Pipeline.datums {δ : Type} (p : Pipeline δ) : List δ :=
  (sentBatches p.accumulator).flatten ++ p.accumulator.metricDatumBatch.Partition ++ p.metricChan

/-- The drain scenario: 50 datums queued in `metricChan`, a fresh batch with
`MaxDatumsPerCall = 1000`, nothing sent yet. -/
def drainScenario : Pipeline Nat :=
  { metricChan := List.range 50
    accumulator := startRoutines 1000 100 0
    published := 0 }

/-- In the drain scenario the accumulator receives the 50 datums during the first
sleep of `Shutdown`; nothing else happens. -/
def drainScenarioWork : Nat → List (PipelineEvent Nat) :=
  fun i => if i = 0 then List.replicate 50 (PipelineEvent.receive 500000000) else []

/-- The drain scenario when `Shutdown` closes the shutdown signal, with a payload of
100 bytes per datum and a flush interval of 60 s. -/
def drainScenarioEnd : Pipeline Nat :=
  Shutdown (fun _ => 100) 60000000000 drainScenarioWork drainScenario

/-- A state of `publish` used in examples: an interval of 1.875 s, the next wake at
6001 ms, the flag unset. -/
def halvingState : PublishState :=
  { currentInterval := 1875000000, nextMs := 6001, bufferFullOccurred := false }

/-- A round of `publish` used in examples: at 5000 ms the batch channel is full. -/
def halvingInput : PublishInput :=
  { nowMs := 5000, batchFull := true }

end CloudWatch

/-! # Theorems -/

namespace CloudWatch

/-! ## Batch accumulator: proofs -/

/-- An invariant of the loop body holds after every run of the loop. -/
theorem pushMetricDatum_invariant {δ : Type} (payload : δ → Int) (forceFlushInterval : Int)
    (I : Accumulator δ → Prop)
    (hstep : ∀ c e, I c → I (pushMetricDatumStep payload forceFlushInterval c e)) :
    ∀ (events : List (Event δ)) (c : Accumulator δ), I c →
      I (pushMetricDatum payload forceFlushInterval c events) := by
  intro events
  induction events with
  | nil => intro c hc; exact hc
  | cons e es ih =>
    intro c hc
    exact ih _ (hstep c e hc)

theorem countInv_step {δ : Type} (payload : δ → Int) (forceFlushInterval M : Int) (hM : 0 < M)
    (c : Accumulator δ) (e : Event δ) (hc : CountInv M c) :
    CountInv M (pushMetricDatumStep payload forceFlushInterval c e) := by
  obtain ⟨h1, h2, h3⟩ := hc
  cases e with
  | datum d now =>
    simp only [pushMetricDatumStep]
    split
    · refine ⟨by simpa [MetricDatumBatch.clear] using h1, by simpa [MetricDatumBatch.clear] using hM, ?_⟩
      intro h hh
      rcases List.mem_append.1 hh with hh | hh
      · exact h3 h hh
      · simp only [List.mem_singleton] at hh
        subst hh
        simp only [List.length_append, List.length_singleton]
        constructor
        · omega
        · push_cast; omega
    · rename_i hfull
      refine ⟨h1, ?_, h3⟩
      simp only [MetricDatumBatch.isFull, Bool.or_eq_true, decide_eq_true_eq, not_or, h1] at hfull
      exact lt_of_not_ge hfull.1
  | tick now clearNow =>
    simp only [pushMetricDatumStep]
    split
    · rename_i htime
      simp only [timeToPublish, Bool.and_eq_true, decide_eq_true_eq] at htime
      refine ⟨by simpa [MetricDatumBatch.clear] using h1, by simpa [MetricDatumBatch.clear] using hM, ?_⟩
      intro h hh
      rcases List.mem_append.1 hh with hh | hh
      · exact h3 h hh
      · simp only [List.mem_singleton] at hh
        subst hh
        exact ⟨htime.1, le_of_lt h2⟩
    · exact ⟨h1, h2, h3⟩

theorem sizeInv_step {δ : Type} (payload : δ → Int) (forceFlushInterval : Int)
    (c : Accumulator δ) (e : Event δ) (hc : SizeInv payload c) :
    SizeInv payload (pushMetricDatumStep payload forceFlushInterval c e) := by
  obtain ⟨h1, h2, h3, h4⟩ := hc
  cases e with
  | datum d now =>
    simp only [pushMetricDatumStep]
    split
    · refine ⟨by simpa [MetricDatumBatch.clear] using h1, by simpa [MetricDatumBatch.clear] using h1,
        Or.inl (by simp [MetricDatumBatch.clear]), ?_⟩
      intro h hh
      rcases List.mem_append.1 hh with hh | hh
      · exact h4 h hh
      · simp only [List.mem_singleton] at hh
        subst hh
        exact ⟨d, by simp, by simp only; omega⟩
    · rename_i hfull
      simp only [MetricDatumBatch.isFull, Bool.or_eq_true, decide_eq_true_eq, not_or] at hfull
      refine ⟨h1, le_of_lt (lt_of_not_ge hfull.2), Or.inr ⟨d, by simp, by simp only; omega⟩, h4⟩
  | tick now clearNow =>
    simp only [pushMetricDatumStep]
    split
    · rename_i htime
      simp only [timeToPublish, Bool.and_eq_true, decide_eq_true_eq] at htime
      refine ⟨by simpa [MetricDatumBatch.clear] using h1, by simpa [MetricDatumBatch.clear] using h1,
        Or.inl (by simp [MetricDatumBatch.clear]), ?_⟩
      intro h hh
      rcases List.mem_append.1 hh with hh | hh
      · exact h4 h hh
      · simp only [List.mem_singleton] at hh
        subst hh
        rcases h3 with h3 | h3
        · rw [h3] at htime; simp at htime
        · exact h3
    · exact ⟨h1, h2, h3, h4⟩

theorem causeInv_step {δ : Type} (payload : δ → Int) (forceFlushInterval : Int)
    (c : Accumulator δ) (e : Event δ) (hc : CauseInv forceFlushInterval c) :
    CauseInv forceFlushInterval (pushMetricDatumStep payload forceFlushInterval c e) := by
  cases e with
  | datum d now =>
    simp only [pushMetricDatumStep]
    split
    · rename_i hfull
      simp only [MetricDatumBatch.isFull, Bool.or_eq_true, decide_eq_true_eq] at hfull
      intro h hh
      rcases List.mem_append.1 hh with hh | hh
      · exact hc h hh
      · simp only [List.mem_singleton] at hh
        subst hh
        exact ⟨by simp, Or.inl hfull⟩
    · exact hc
  | tick now clearNow =>
    simp only [pushMetricDatumStep]
    split
    · rename_i htime
      simp only [timeToPublish, Bool.and_eq_true, decide_eq_true_eq] at htime
      intro h hh
      rcases List.mem_append.1 hh with hh | hh
      · exact hc h hh
      · simp only [List.mem_singleton] at hh
        subst hh
        exact ⟨List.ne_nil_of_length_pos htime.1, Or.inr htime.2⟩
    · exact hc

/-- One loop iteration adds the event's datum, if any, behind the datums that the
sent batches and the held batch contain. -/
theorem flatten_step {δ : Type} (payload : δ → Int) (forceFlushInterval : Int)
    (c : Accumulator δ) (e : Event δ) :
    (sentBatches (pushMetricDatumStep payload forceFlushInterval c e)).flatten ++
        (pushMetricDatumStep payload forceFlushInterval c e).metricDatumBatch.Partition =
      ((sentBatches c).flatten ++ c.metricDatumBatch.Partition) ++ received [e] := by
  cases e with
  | datum d now =>
    simp only [pushMetricDatumStep]
    split <;> simp [sentBatches, received, MetricDatumBatch.clear]
  | tick now clearNow =>
    simp only [pushMetricDatumStep]
    split <;> simp [sentBatches, received, MetricDatumBatch.clear]

theorem received_cons {δ : Type} (e : Event δ) (es : List (Event δ)) :
    received (e :: es) = received [e] ++ received es := by
  cases e <;> simp [received]

theorem flatten_run {δ : Type} (payload : δ → Int) (forceFlushInterval : Int) :
    ∀ (events : List (Event δ)) (c : Accumulator δ),
      (sentBatches (pushMetricDatum payload forceFlushInterval c events)).flatten ++
          (pushMetricDatum payload forceFlushInterval c events).metricDatumBatch.Partition =
        ((sentBatches c).flatten ++ c.metricDatumBatch.Partition) ++ received events := by
  intro events
  induction events with
  | nil => intro c; simp [pushMetricDatum, received]
  | cons e es ih =>
    intro c
    have h := ih (pushMetricDatumStep payload forceFlushInterval c e)
    rw [flatten_step] at h
    rw [received_cons, ← List.append_assoc]
    exact h

/-- C1. Batch count bound: with `MaxDatumsPerCall > 0`, after any sequence of datum
arrivals and ticks processed from a fresh batch, every batch sent on
`datumBatchChan` holds at least one and at most `MaxDatumsPerCall` datums. -/
theorem C1_batch_count_bound {δ : Type} (payload : δ → Int)
    (forceFlushInterval maxDatumsPerCall constSize now : Int) (events : List (Event δ))
    (hmax : 0 < maxDatumsPerCall) :
    ∀ h ∈ (pushMetricDatum payload forceFlushInterval
        (startRoutines maxDatumsPerCall constSize now) events).datumBatchChan,
      1 ≤ h.batch.Partition.length ∧ (h.batch.Partition.length : Int) ≤ maxDatumsPerCall := by
  have hinv := pushMetricDatum_invariant payload forceFlushInterval (CountInv maxDatumsPerCall)
    (countInv_step payload forceFlushInterval maxDatumsPerCall hmax) events
    (startRoutines maxDatumsPerCall constSize now)
    ⟨rfl, by simpa [startRoutines, newMetricDatumBatch] using hmax,
      by simp [startRoutines]⟩
  exact hinv.2.2

/-- Witness of C1: three datums and a late tick with `MaxDatumsPerCall = 2`; the
batch sent at the second datum holds two datums. -/
theorem C1_batch_count_bound_witness :
    (0 : Int) < 2 ∧
    ({ batch := { MaxDatumsPerCall := 2, Partition := [5, 6], BeginTime := 0, Size := 111,
                  perRequestConstSize := 100 }, now := 2 } : HandOff Nat) ∈
      (pushMetricDatum (fun n : Nat => (n : Int)) 10 (startRoutines 2 100 0)
        [Event.datum 5 1, Event.datum 6 2, Event.datum 7 3, Event.tick 20 21]).datumBatchChan ∧
    (1 ≤ ([5, 6] : List Nat).length ∧ (([5, 6] : List Nat).length : Int) ≤ 2) :=
  ⟨by decide, by decide,
    C1_batch_count_bound (fun n : Nat => (n : Int)) 10 2 100 0
      [Event.datum 5 1, Event.datum 6 2, Event.datum 7 3, Event.tick 20 21] (by decide)
      { batch := { MaxDatumsPerCall := 2, Partition := [5, 6], BeginTime := 0, Size := 111,
                   perRequestConstSize := 100 }, now := 2 } (by decide)⟩

/-- C2 as stated fails: with a namespace of 1000000 bytes the fresh batch already
starts above the ceiling of 999000, and the batch sent at the first datum (payload
10) has running size 1000060 > 999000 + 10. The two constants, 39 and 11 here, only
add to the namespace length; any non-negative values give the same outcome. -/
theorem C2_counterexample :
    ¬ ∀ h ∈ (pushMetricDatum (fun _ : Nat => (10 : Int)) 60000000000
        (startRoutines 1000 (perRequestConstSize 39 1000000 11) 0)
        [Event.datum 0 1]).datumBatchChan,
      ∃ last, h.batch.Partition.getLast? = some last ∧
        h.batch.Size ≤ bottomLinePayloadSizeInBytesToPublish + (fun _ : Nat => (10 : Int)) last := by
  intro H
  obtain ⟨last, -, h2⟩ := H
    { batch := { MaxDatumsPerCall := 1000, Partition := [0], BeginTime := 0, Size := 1000060,
                 perRequestConstSize := 1000050 }, now := 1 } (by decide)
  have h3 : (1000060 : Int) ≤ 999000 + 10 := h2
  exact absurd h3 (by decide)

/-- C2, amended. Batch size bound: when the per-request constant size is at most the
ceiling of 999000 bytes, after any sequence of datum arrivals and ticks processed
from a fresh batch, every batch sent has a last datum and a running size of at most
the ceiling plus the payload of that datum. -/
theorem C2_batch_size_bound {δ : Type} (payload : δ → Int)
    (forceFlushInterval maxDatumsPerCall constSize now : Int) (events : List (Event δ))
    (hconst : constSize ≤ bottomLinePayloadSizeInBytesToPublish) :
    ∀ h ∈ (pushMetricDatum payload forceFlushInterval
        (startRoutines maxDatumsPerCall constSize now) events).datumBatchChan,
      ∃ last, h.batch.Partition.getLast? = some last ∧
        h.batch.Size ≤ bottomLinePayloadSizeInBytesToPublish + payload last := by
  have hinv := pushMetricDatum_invariant payload forceFlushInterval (SizeInv payload)
    (sizeInv_step payload forceFlushInterval) events
    (startRoutines maxDatumsPerCall constSize now)
    ⟨by simpa [startRoutines, newMetricDatumBatch] using hconst,
      by simpa [startRoutines, newMetricDatumBatch] using hconst,
      Or.inl (by simp [startRoutines, newMetricDatumBatch]), by simp [startRoutines]⟩
  exact hinv.2.2.2

/-- Witness of C2 (amended): a constant of 100 and a datum of payload 999999 that
fills the batch by size; the batch is sent with size 1000099. -/
theorem C2_batch_size_bound_witness :
    (100 : Int) ≤ bottomLinePayloadSizeInBytesToPublish ∧
    ({ batch := { MaxDatumsPerCall := 5, Partition := [999999], BeginTime := 0,
                  Size := 1000099, perRequestConstSize := 100 }, now := 1 } : HandOff Nat) ∈
      (pushMetricDatum (fun n : Nat => (n : Int)) 10 (startRoutines 5 100 0)
        [Event.datum 999999 1, Event.datum 6 2, Event.tick 20 21]).datumBatchChan ∧
    ∃ last, ([999999] : List Nat).getLast? = some last ∧
      (1000099 : Int) ≤ bottomLinePayloadSizeInBytesToPublish + (fun n : Nat => (n : Int)) last :=
  ⟨by decide, by decide,
    C2_batch_size_bound (fun n : Nat => (n : Int)) 10 5 100 0
      [Event.datum 999999 1, Event.datum 6 2, Event.tick 20 21] (by decide)
      { batch := { MaxDatumsPerCall := 5, Partition := [999999], BeginTime := 0,
                   Size := 1000099, perRequestConstSize := 100 }, now := 1 } (by decide)⟩

/-- C3. No loss, duplication or reordering: after any sequence of datum arrivals
and ticks, the batches sent so far, concatenated in the order they were sent, followed
by the batch currently held, are the datums received, in arrival order. -/
theorem C3_no_loss_no_reorder {δ : Type} (payload : δ → Int)
    (forceFlushInterval maxDatumsPerCall constSize now : Int) (events : List (Event δ)) :
    (sentBatches (pushMetricDatum payload forceFlushInterval
        (startRoutines maxDatumsPerCall constSize now) events)).flatten ++
      (pushMetricDatum payload forceFlushInterval
        (startRoutines maxDatumsPerCall constSize now) events).metricDatumBatch.Partition =
    received events := by
  rw [flatten_run]
  simp [sentBatches, startRoutines, newMetricDatumBatch]

/-- C4. Freshness of dispatch: every batch sent is non-empty and, at the send, either
full (count at least `MaxDatumsPerCall` or size at least 999000) or of age
`now - BeginTime` at least `ForceFlushInterval`. -/
theorem C4_dispatch_full_or_stale {δ : Type} (payload : δ → Int)
    (forceFlushInterval maxDatumsPerCall constSize now : Int) (events : List (Event δ)) :
    ∀ h ∈ (pushMetricDatum payload forceFlushInterval
        (startRoutines maxDatumsPerCall constSize now) events).datumBatchChan,
      h.batch.Partition ≠ [] ∧
      (((h.batch.Partition.length : Int) ≥ h.batch.MaxDatumsPerCall ∨
          h.batch.Size ≥ 999000) ∨
        h.now - h.batch.BeginTime ≥ forceFlushInterval) := by
  have hinv := pushMetricDatum_invariant payload forceFlushInterval (CauseInv forceFlushInterval)
    (causeInv_step payload forceFlushInterval) events
    (startRoutines maxDatumsPerCall constSize now) (by simp [CauseInv, startRoutines])
  exact hinv

/-- Witness of C4: the batch sent by the tick at time 20 holds one datum, is not
full, and has age 20 - 2 = 18, at least the interval of 10. -/
theorem C4_dispatch_full_or_stale_witness :
    ({ batch := { MaxDatumsPerCall := 2, Partition := [7], BeginTime := 2, Size := 107,
                  perRequestConstSize := 100 }, now := 20 } : HandOff Nat) ∈
      (pushMetricDatum (fun n : Nat => (n : Int)) 10 (startRoutines 2 100 0)
        [Event.datum 5 1, Event.datum 6 2, Event.datum 7 3, Event.tick 20 21]).datumBatchChan ∧
    (([7] : List Nat) ≠ [] ∧
      (((([7] : List Nat).length : Int) ≥ 2 ∨ (107 : Int) ≥ 999000) ∨ (20 : Int) - 2 ≥ 10)) :=
  ⟨by decide,
    C4_dispatch_full_or_stale (fun n : Nat => (n : Int)) 10 2 100 0
      [Event.datum 5 1, Event.datum 6 2, Event.datum 7 3, Event.tick 20 21]
      { batch := { MaxDatumsPerCall := 2, Partition := [7], BeginTime := 2, Size := 107,
                   perRequestConstSize := 100 }, now := 20 } (by decide)⟩

/-! ## Dimensions: proofs -/

theorem strLe_total (a b : String) : a.toList ≤ b.toList ∨ b.toList ≤ a.toList :=
  le_total _ _

theorem strLe_trans (a b c : String) (h₁ : a.toList ≤ b.toList) (h₂ : b.toList ≤ c.toList) :
    a.toList ≤ c.toList :=
  le_trans h₁ h₂

theorem strLe_antisymm (a b : String) (h₁ : a.toList ≤ b.toList) (h₂ : b.toList ≤ a.toList) :
    a = b :=
  String.toList_inj.1 (le_antisymm h₁ h₂)

/-- The result of `sort.Strings` is ascending. -/
theorem sortStrings_sorted (l : List String) :
    (sortStrings l).Sorted (fun a b => a.toList ≤ b.toList) := by
  haveI : IsTotal String (fun a b => a.toList ≤ b.toList) := ⟨strLe_total⟩
  haveI : IsTrans String (fun a b => a.toList ≤ b.toList) := ⟨strLe_trans⟩
  exact List.sorted_insertionSort _ l

theorem sortStrings_perm (l : List String) : (sortStrings l).Perm l :=
  List.perm_insertionSort _ l

/-- Sorting does not depend on the order in which the keys are enumerated. -/
theorem sortStrings_eq_of_perm {l₁ l₂ : List String} (h : l₁.Perm l₂) :
    sortStrings l₁ = sortStrings l₂ := by
  haveI : IsAntisymm String (fun a b => a.toList ≤ b.toList) := ⟨strLe_antisymm⟩
  exact List.eq_of_perm_of_sorted
    (((sortStrings_perm l₁).trans h).trans (sortStrings_perm l₂).symm)
    (sortStrings_sorted l₁) (sortStrings_sorted l₂)

/-- Whatever the order in which `range tagMap` visits the keys, `sortedTagKeys`
returns the same list. -/
theorem sortedTagKeys_perm (tagMap : TagMap) (l : List String)
    (h : l.Perm (TagMap.keys tagMap)) : sortStrings l = sortedTagKeys tagMap :=
  sortStrings_eq_of_perm h

/-- Sorting and then dropping keys is dropping keys and then sorting. -/
theorem sortStrings_filter (p : String → Bool) (l : List String) :
    (sortStrings l).filter p = sortStrings (l.filter p) := by
  haveI : IsAntisymm String (fun a b => a.toList ≤ b.toList) := ⟨strLe_antisymm⟩
  exact List.eq_of_perm_of_sorted
    (((sortStrings_perm l).filter p).trans (sortStrings_perm (l.filter p)).symm)
    ((sortStrings_sorted l).filter p) (sortStrings_sorted (l.filter p))

/-- A duplicate-free list of strings, once sorted, is strictly ascending. -/
theorem sortStrings_strict (l : List String) (h : l.Nodup) :
    (sortStrings l).Sorted (fun a b => a < b) := by
  have hs := sortStrings_sorted l
  have hn : (sortStrings l).Nodup := (sortStrings_perm l).nodup_iff.2 h
  exact List.Pairwise.imp₂
    (fun a b hab hne => lt_of_le_of_ne (String.le_iff_toList_le.2 hab) hne) hs hn

/-- The loop of `BuildDimensions` appends the kept keys and stops at 30 entries. -/
theorem buildDimensionsLoop_eq (tagMap : TagMap) :
    ∀ (ks : List String) (dimensions : List Dimension), dimensions.length ≤ 30 →
      buildDimensionsLoop tagMap ks dimensions =
        (dimensions ++ (ks.filter
            (fun k => decide (k ≠ "host") && decide (TagMap.get tagMap k ≠ ""))).map
          (fun k => ({ Name := k, Value := TagMap.get tagMap k } : Dimension))).take 30 := by
  intro ks
  induction ks with
  | nil =>
    intro dimensions hlen
    simp [buildDimensionsLoop, List.take_of_length_le hlen]
  | cons k ks ih =>
    intro dimensions hlen
    unfold buildDimensionsLoop
    by_cases hfull : dimensions.length ≥ MaxDimensions
    · have h30 : dimensions.length = 30 := le_antisymm hlen hfull
      rw [if_pos hfull, List.take_append_of_le_length (le_of_eq h30.symm),
        List.take_of_length_le hlen]
    · rw [if_neg hfull]
      have hlt : dimensions.length < 30 := lt_of_not_ge hfull
      by_cases hhost : k = "host"
      · rw [if_pos hhost, ih dimensions hlen]
        simp [hhost]
      · rw [if_neg hhost]
        by_cases hval : TagMap.get tagMap k = ""
        · rw [if_pos hval, ih dimensions hlen]
          simp [hval]
        · rw [if_neg hval, ih _ (by simp; omega)]
          simp [hhost, hval]

theorem hostEntry_length (tagMap : TagMap) : (hostEntry tagMap).length ≤ 1 := by
  unfold hostEntry
  split
  · split <;> simp
  · simp

/-- The code of `BuildDimensions` computes the reference definition. -/
theorem buildDimensions_eq_ref (tagMap : TagMap) :
    BuildDimensions tagMap = BuildDimensionsRef tagMap := by
  have hinit :
      (match TagMap.get? tagMap "host" with
        | some host => if host ≠ "" then [({ Name := "host", Value := host } : Dimension)] else []
        | none => []) = hostEntry tagMap := by
    unfold hostEntry
    split
    · split <;> simp_all
    · rfl
  unfold BuildDimensions BuildDimensionsRef
  simp only [hinit]
  rw [buildDimensionsLoop_eq tagMap _ _ (le_trans (hostEntry_length tagMap) (by decide))]
  unfold sortedTagKeys otherTagNames
  rw [sortStrings_filter]

theorem get?_isSome_iff_mem_keys (tagMap : TagMap) (k : String) :
    (∃ v, TagMap.get? tagMap k = some v) ↔ k ∈ TagMap.keys tagMap := by
  unfold TagMap.keys
  rw [List.mem_dedup]
  induction tagMap with
  | nil => simp [TagMap.get?]
  | cons p m ih =>
    obtain ⟨k', v'⟩ := p
    by_cases h : k = k'
    · simp [TagMap.get?, h]
    · simp [TagMap.get?, h, ih]

/-- The names the reference definition lists after `host`: the tags other than `host`
that the map binds to a non-empty value. -/
theorem mem_otherTagNames (tagMap : TagMap) (k : String) :
    k ∈ otherTagNames tagMap ↔
      k ≠ "host" ∧ ∃ v, TagMap.get? tagMap k = some v ∧ v ≠ "" := by
  unfold otherTagNames
  rw [(sortStrings_perm _).mem_iff, List.mem_filter, ← get?_isSome_iff_mem_keys]
  simp only [Bool.and_eq_true, decide_eq_true_eq, TagMap.get]
  constructor
  · rintro ⟨⟨v, hv⟩, hne, hval⟩
    exact ⟨hne, v, hv, by simpa [hv] using hval⟩
  · rintro ⟨hne, v, hv, hval⟩
    exact ⟨⟨v, hv⟩, hne, by simpa [hv] using hval⟩

theorem otherTagNames_strict (tagMap : TagMap) :
    (otherTagNames tagMap).Sorted (fun a b => a < b) :=
  sortStrings_strict _ ((List.nodup_dedup _).filter _)

/-- C5. `BuildDimensions` equals its reference definition: the `host` entry (only
when the map has `host` with a non-empty value), then the other tags with non-empty
values in strictly ascending order of name, each with the map's value, the whole
truncated to the first 30 entries. The second and third part say what the names of
the reference definition are. -/
theorem C5_buildDimensions_refines (tagMap : TagMap) :
    BuildDimensions tagMap = BuildDimensionsRef tagMap ∧
      (otherTagNames tagMap).Sorted (fun a b => a < b) ∧
      ∀ k, k ∈ otherTagNames tagMap ↔
        k ≠ "host" ∧ ∃ v, TagMap.get? tagMap k = some v ∧ v ≠ "" :=
  ⟨buildDimensions_eq_ref tagMap, otherTagNames_strict tagMap, mem_otherTagNames tagMap⟩

/-- C6. `BuildDimensions` returns at most 30 (`MaxDimensions`) dimensions, for every
tag map. -/
theorem C6_buildDimensions_length (tagMap : TagMap) :
    (BuildDimensions tagMap).length ≤ MaxDimensions := by
  rw [buildDimensions_eq_ref]
  unfold BuildDimensionsRef MaxDimensions
  simp [List.length_take]

/-- C7. When the map has `host` with a non-empty value, the result starts with the
dimension `host` with that value, and no later entry is named `host`. -/
theorem C7_host_first (tagMap : TagMap) (v : String)
    (hhost : TagMap.get? tagMap "host" = some v) (hne : v ≠ "") :
    (BuildDimensions tagMap)[0]? = some { Name := "host", Value := v } ∧
      ∀ d ∈ (BuildDimensions tagMap).tail, d.Name ≠ "host" := by
  rw [buildDimensions_eq_ref]
  have hentry : hostEntry tagMap = [{ Name := "host", Value := v }] := by
    simp [hostEntry, hhost, hne]
  unfold BuildDimensionsRef
  rw [hentry]
  refine ⟨by simp, ?_⟩
  intro d hd
  simp only [List.singleton_append, List.take_succ_cons, List.tail_cons] at hd
  have hd' := List.mem_of_mem_take hd
  rcases List.mem_map.1 hd' with ⟨k, hk, rfl⟩
  exact ((mem_otherTagNames tagMap k).1 hk).1

/-- Witness of C7: `host` sorts behind `a` and `b` and is still first. -/
theorem C7_host_first_witness :
    TagMap.get? [("b", "2"), ("host", "h"), ("a", "1"), ("z", "")] "host" = some "h" ∧
    "h" ≠ "" ∧
    ((BuildDimensions [("b", "2"), ("host", "h"), ("a", "1"), ("z", "")])[0]? =
        some { Name := "host", Value := "h" } ∧
      ∀ d ∈ (BuildDimensions [("b", "2"), ("host", "h"), ("a", "1"), ("z", "")]).tail,
        d.Name ≠ "host") :=
  ⟨by decide, by decide, C7_host_first _ "h" (by decide) (by decide)⟩


/-- The dimension-limit scenario: of 35 non-empty tags including `host`, the result
keeps 30: `host`, then the 29 first of the other 34 in ascending order. -/
theorem buildDimensions_scenario :
    BuildDimensions scenarioTags =
      [⟨"host", "h"⟩, ⟨"t01", "v01"⟩, ⟨"t02", "v02"⟩,
       ⟨"t03", "v03"⟩, ⟨"t04", "v04"⟩, ⟨"t05", "v05"⟩,
       ⟨"t06", "v06"⟩, ⟨"t07", "v07"⟩, ⟨"t08", "v08"⟩,
       ⟨"t09", "v09"⟩, ⟨"t10", "v10"⟩, ⟨"t11", "v11"⟩,
       ⟨"t12", "v12"⟩, ⟨"t13", "v13"⟩, ⟨"t14", "v14"⟩,
       ⟨"t15", "v15"⟩, ⟨"t16", "v16"⟩, ⟨"t17", "v17"⟩,
       ⟨"t18", "v18"⟩, ⟨"t19", "v19"⟩, ⟨"t20", "v20"⟩,
       ⟨"t21", "v21"⟩, ⟨"t22", "v22"⟩, ⟨"t23", "v23"⟩,
       ⟨"t24", "v24"⟩, ⟨"t25", "v25"⟩, ⟨"t26", "v26"⟩,
       ⟨"t27", "v27"⟩, ⟨"t28", "v28"⟩, ⟨"t29", "v29"⟩] := by
  decide

/-! ## Rollup: proofs -/

/-- With distinct names, the map filled by `ProcessRollup` binds a name to the value
of the dimension of that name. -/
theorem foldl_rawDimensionMap (k : String) :
    ∀ (raw : List Dimension) (m : String → Option String),
      (raw.map (fun d => d.Name)).Nodup →
      raw.foldl (fun m v => fun k => if k = v.Name then some v.Value else m k) m k =
        match raw.find? (fun d => decide (d.Name = k)) with
        | some d => some d.Value
        | none => m k := by
  intro raw
  induction raw with
  | nil => intro m _; rfl
  | cons d ds ih =>
    intro m hnd
    rw [List.map_cons, List.nodup_cons] at hnd
    rw [List.foldl_cons, ih _ hnd.2]
    by_cases hk : d.Name = k
    · have hnone : ds.find? (fun d => decide (d.Name = k)) = none := by
        rw [List.find?_eq_none]
        intro d' hd' hname
        simp only [decide_eq_true_eq] at hname
        exact hnd.1 (List.mem_map.2 ⟨d', hd', by rw [hname, hk]⟩)
      simp [List.find?_cons, hk, hnone]
    · have hk' : ¬ k = d.Name := fun h => hk h.symm
      simp [List.find?_cons, hk, hk']

theorem rawDimensionMap_eq (raw : List Dimension) (hnd : (raw.map (fun d => d.Name)).Nodup)
    (k : String) :
    rawDimensionMap raw k =
      match raw.find? (fun d => decide (d.Name = k)) with
      | some d => some d.Value
      | none => none :=
  foldl_rawDimensionMap k raw (fun _ => none) hnd

theorem rawDimensionMap_of_mem (raw : List Dimension)
    (hnd : (raw.map (fun d => d.Name)).Nodup) (k : String)
    (hk : k ∈ raw.map (fun d => d.Name)) :
    rawDimensionMap raw k = some (baseValue raw k) := by
  rw [rawDimensionMap_eq raw hnd, baseValue]
  cases hfind : raw.find? (fun d => decide (d.Name = k)) with
  | some d => rfl
  | none =>
    rw [List.find?_eq_none] at hfind
    rcases List.mem_map.1 hk with ⟨d, hd, rfl⟩
    exact absurd (by simp) (hfind d hd)

theorem rawDimensionMap_of_not_mem (raw : List Dimension)
    (hnd : (raw.map (fun d => d.Name)).Nodup) (k : String)
    (hk : k ∉ raw.map (fun d => d.Name)) :
    rawDimensionMap raw k = none := by
  rw [rawDimensionMap_eq raw hnd]
  cases hfind : raw.find? (fun d => decide (d.Name = k)) with
  | none => rfl
  | some d =>
    have hmem := List.mem_of_find?_eq_some hfind
    have hname := List.find?_some hfind
    simp only [decide_eq_true_eq] at hname
    exact absurd (List.mem_map.2 ⟨d, hmem, hname⟩) hk

/-- The inner loop of `ProcessRollup` fills every slot when the map has all names. -/
theorem rollupLoop_all (m : String → Option String) (val : String → String) :
    ∀ (target : List String) (i : Nat) (extra : List Dimension),
      (∀ n ∈ target, m n = some (val n)) →
      rollupLoop m target i extra =
        (i + target.length,
          extra ++ target.map (fun n => ({ Name := n, Value := val n } : Dimension))) := by
  intro target
  induction target with
  | nil => intro i extra _; simp [rollupLoop]
  | cons n ns ih =>
    intro i extra h
    have hn := h n (List.mem_cons_self _ _)
    rw [rollupLoop]
    simp only [hn]
    rw [ih (i + 1) _ (fun n' hn' => h n' (List.mem_cons_of_mem _ hn'))]
    simp [Nat.add_assoc, Nat.add_comm 1]

/-- The inner loop of `ProcessRollup` stops short when the map lacks a name. -/
theorem rollupLoop_missing (m : String → Option String) :
    ∀ (target : List String) (i : Nat) (extra : List Dimension),
      (∃ n ∈ target, m n = none) →
      (rollupLoop m target i extra).1 < i + target.length := by
  intro target
  induction target with
  | nil => intro i extra h; obtain ⟨n, hn, -⟩ := h; simp at hn
  | cons n ns ih =>
    intro i extra h
    rw [rollupLoop]
    cases hm : m n with
    | none => simp
    | some v =>
      simp only
      obtain ⟨n', hn', hnone⟩ := h
      rcases List.mem_cons.1 hn' with heq | hmem
      · subst heq; rw [hm] at hnone; cases hnone
      · have := ih (i + 1) (extra ++ [{ Name := n, Value := v }]) ⟨n', hmem, hnone⟩
        simp only [List.length_cons]
        omega

/-- A loop that appends a value for the entries that pass a test collects the values
of those entries in order. -/
theorem foldl_append_if {α β : Type} (c : α → Prop) [DecidablePred c] (g : α → β) :
    ∀ (l : List α) (init : List β),
      l.foldl (fun acc x => if c x then acc ++ [g x] else acc) init =
        init ++ l.filterMap (fun x => if c x then some (g x) else none) := by
  intro l
  induction l with
  | nil => intro init; simp
  | cons x xs ih =>
    intro init
    rw [List.foldl_cons, ih]
    by_cases hx : c x <;> simp [List.filterMap_cons, hx]

/-- The code of `ProcessRollup` computes the reference definition. -/
theorem processRollup_eq_ref (rollupDimensions : List (List String)) (base : List Dimension)
    (hnd : (base.map (fun d => d.Name)).Nodup) :
    ProcessRollup rollupDimensions base = ProcessRollupRef rollupDimensions base := by
  unfold ProcessRollup ProcessRollupRef
  simp only
  rw [foldl_append_if
    (fun target => (rollupLoop (rawDimensionMap base) target 0 []).1 = target.length ∧
      ¬ base = (rollupLoop (rawDimensionMap base) target 0 []).2)
    (fun target => (rollupLoop (rawDimensionMap base) target 0 []).2)]
  rw [List.singleton_append]
  congr 1
  apply List.filterMap_congr
  intro spec _
  unfold project
  by_cases hall : ∀ n ∈ spec, n ∈ base.map (fun d => d.Name)
  · have hloop := rollupLoop_all (rawDimensionMap base) (baseValue base) spec 0 []
      (fun n hn => rawDimensionMap_of_mem base hnd n (hall n hn))
    have hall' : spec.all (fun n => decide (n ∈ base.map (fun d => d.Name))) = true := by
      simpa [List.all_eq_true] using hall
    rw [hloop, if_pos hall']
    simp only [Nat.zero_add, List.nil_append, true_and]
    by_cases heq : spec.map (fun n => ({ Name := n, Value := baseValue base n } : Dimension)) = base
    · rw [if_neg (by simpa using heq.symm), if_pos heq]
    · rw [if_pos (fun h => heq h.symm), if_neg heq]
  · have hall' : ¬ spec.all (fun n => decide (n ∈ base.map (fun d => d.Name))) = true := by
      simpa [List.all_eq_true] using hall
    have hmiss : ∃ n ∈ spec, rawDimensionMap base n = none := by
      push_neg at hall
      obtain ⟨n, hn, hnot⟩ := hall
      exact ⟨n, hn, rawDimensionMap_of_not_mem base hnd n hnot⟩
    have hlt := rollupLoop_missing (rawDimensionMap base) spec 0 [] hmiss
    rw [if_neg hall', if_neg]
    intro h
    omega

/-- C8. `ProcessRollup` equals its reference definition: for a base list with
distinct names, the result is the base list, followed in the order of the rollup
specs by the projection of each spec whose names all occur in the base list and
whose projection differs from the base list. -/
theorem C8_processRollup_refines (rollupDimensions : List (List String))
    (base : List Dimension) (hdistinct : (base.map (fun d => d.Name)).Nodup) :
    ProcessRollup rollupDimensions base = ProcessRollupRef rollupDimensions base :=
  processRollup_eq_ref rollupDimensions base hdistinct

/-- Witness of C8: the rollup scenario, base `host, A, B, C` and specs `[A, B]`,
`[A, D]`. -/
theorem C8_processRollup_refines_witness :
    (([⟨"host", "h"⟩, ⟨"A", "1"⟩, ⟨"B", "2"⟩, ⟨"C", "3"⟩] : List Dimension).map
        (fun d => d.Name)).Nodup ∧
    ProcessRollup [["A", "B"], ["A", "D"]]
        [⟨"host", "h"⟩, ⟨"A", "1"⟩, ⟨"B", "2"⟩, ⟨"C", "3"⟩] =
      ProcessRollupRef [["A", "B"], ["A", "D"]]
        [⟨"host", "h"⟩, ⟨"A", "1"⟩, ⟨"B", "2"⟩, ⟨"C", "3"⟩] :=
  ⟨by decide, C8_processRollup_refines _ _ (by decide)⟩

/-- The rollup scenario: `[A, B]` yields a variant, `[A, D]` does not. -/
theorem processRollup_scenario :
    ProcessRollup [["A", "B"], ["A", "D"]]
        [⟨"host", "h"⟩, ⟨"A", "1"⟩, ⟨"B", "2"⟩, ⟨"C", "3"⟩] =
      [[⟨"host", "h"⟩, ⟨"A", "1"⟩, ⟨"B", "2"⟩, ⟨"C", "3"⟩], [⟨"A", "1"⟩, ⟨"B", "2"⟩]] := by
  decide

/-! ## Unique rollup list: proofs -/

/-- The inner loop of `GetUniqueRollupList`, run from position `count` of the
snapshot: it leaves `uniqueLists` alone when the input occurs in the rest of the
snapshot (or the rest is empty), and appends the input otherwise. -/
theorem uniqueInnerLoop_eq {α : Type} [DecidableEq α] (x : α) (U : List α) :
    ∀ (us : List α) (count : Nat), count + us.length = U.length →
      uniqueInnerLoop x us count U =
        if x ∈ us then U else if us = [] then U else U ++ [x] := by
  intro us
  induction us with
  | nil => intro count _; simp [uniqueInnerLoop]
  | cons u us ih =>
    intro count hlen
    simp only [List.length_cons] at hlen
    rw [uniqueInnerLoop]
    by_cases hx : x = u
    · simp [hx]
    · rw [if_neg hx]
      simp only
      by_cases hc : count + 1 = U.length
      · have hus : us = [] := List.length_eq_zero.1 (by omega)
        subst hus
        simp [hc, uniqueInnerLoop, hx]
      · rw [if_neg hc, ih (count + 1) (by omega)]
        have hus : us ≠ [] := by
          intro h
          subst h
          simp at hlen
          omega
        by_cases hmem : x ∈ us
        · simp [hmem]
        · simp [hmem, hx, hus]

/-- One round of the outer loop, when `uniqueLists` is not empty. -/
theorem uniqueInnerLoop_start {α : Type} [DecidableEq α] (x : α) (U : List α) (hU : U ≠ []) :
    uniqueInnerLoop x U 0 U = appendIfNew U x := by
  rw [uniqueInnerLoop_eq x U U 0 (by simp), appendIfNew]
  simp [hU]

theorem appendIfNew_ne_nil {α : Type} [DecidableEq α] (U : List α) (x : α) (hU : U ≠ []) :
    appendIfNew U x ≠ [] := by
  unfold appendIfNew
  split
  · exact hU
  · simp

theorem foldl_uniqueInnerLoop {α : Type} [DecidableEq α] (xs : List α) :
    ∀ U : List α, U ≠ [] →
      xs.foldl (fun uniqueLists inputList => uniqueInnerLoop inputList uniqueLists 0 uniqueLists) U =
        xs.foldl appendIfNew U := by
  induction xs with
  | nil => intro U _; rfl
  | cons x xs ih =>
    intro U hU
    rw [List.foldl_cons, List.foldl_cons, uniqueInnerLoop_start x U hU,
      ih _ (appendIfNew_ne_nil U x hU)]

theorem getUniqueRollupList_eq_foldl {α : Type} [DecidableEq α] (X : List α) :
    GetUniqueRollupList X = X.foldl appendIfNew [] := by
  cases X with
  | nil => rfl
  | cons x xs =>
    unfold GetUniqueRollupList
    simp only
    rw [foldl_uniqueInnerLoop _ _ (by simp), List.foldl_cons, List.foldl_cons]
    simp [appendIfNew]

theorem firstOccurrences_snoc {α : Type} [DecidableEq α] (X : List α) (x : α) :
    firstOccurrences (X ++ [x]) = firstOccurrences X ++ (if x ∈ X then [] else [x]) := by
  unfold firstOccurrences
  rw [List.enum_append, List.filter_append, List.map_append]
  congr 1
  · congr 1
    apply List.filter_congr
    intro p hp
    have hlt := List.fst_lt_of_mem_enum hp
    rw [List.take_append_of_le_length (le_of_lt hlt)]
  · by_cases hx : x ∈ X <;> simp [List.enumFrom_singleton, List.filter_cons, hx]

theorem mem_firstOccurrences {α : Type} [DecidableEq α] (X : List α) (x : α) :
    x ∈ firstOccurrences X ↔ x ∈ X := by
  induction X using List.reverseRecOn with
  | nil => simp [firstOccurrences]
  | append_singleton X y ih =>
    rw [firstOccurrences_snoc]
    by_cases hy : y ∈ X
    · simp only [hy, if_true, List.append_nil, ih, List.mem_append, List.mem_singleton]
      constructor
      · exact Or.inl
      · rintro (h | h)
        · exact h
        · exact h ▸ hy
    · simp [hy, ih]

theorem foldl_appendIfNew {α : Type} [DecidableEq α] (X : List α) :
    X.foldl appendIfNew [] = firstOccurrences X := by
  induction X using List.reverseRecOn with
  | nil => simp [firstOccurrences]
  | append_singleton X y ih =>
    rw [List.foldl_append, List.foldl_cons, List.foldl_nil, ih, firstOccurrences_snoc,
      appendIfNew]
    by_cases hy : y ∈ X
    · simp [hy, mem_firstOccurrences]
    · simp [hy, mem_firstOccurrences]

theorem firstOccurrences_nodup {α : Type} [DecidableEq α] (X : List α) :
    (firstOccurrences X).Nodup := by
  induction X using List.reverseRecOn with
  | nil => simp [firstOccurrences]
  | append_singleton X y ih =>
    rw [firstOccurrences_snoc]
    by_cases hy : y ∈ X
    · simpa [hy] using ih
    · simp only [hy, if_false]
      rw [List.nodup_append]
      refine ⟨ih, List.nodup_singleton y, ?_⟩
      intro a ha hb
      rw [List.mem_singleton] at hb
      subst hb
      exact hy ((mem_firstOccurrences X a).1 ha)

theorem firstOccurrences_of_nodup {α : Type} [DecidableEq α] (X : List α) (h : X.Nodup) :
    firstOccurrences X = X := by
  induction X using List.reverseRecOn with
  | nil => simp [firstOccurrences]
  | append_singleton X y ih =>
    rw [List.nodup_append] at h
    have hy : y ∉ X := fun hmem => h.2.2 hmem (List.mem_singleton_self y)
    rw [firstOccurrences_snoc, ih h.1]
    simp [hy]

/-- The code of `GetUniqueRollupList` computes the reference definition. -/
theorem getUniqueRollupList_eq {α : Type} [DecidableEq α] (X : List α) :
    GetUniqueRollupList X = firstOccurrences X := by
  rw [getUniqueRollupList_eq_foldl, foldl_appendIfNew]

/-- C9. `GetUniqueRollupList` removes repeats and keeps the order of first
occurrence: the result is the input with every later repeat of an entry removed, it
has no two equal entries, and its entries are exactly the entries of the input. -/
theorem C9_getUniqueRollupList_first_seen {α : Type} [DecidableEq α] (X : List α) :
    GetUniqueRollupList X = firstOccurrences X ∧
      (GetUniqueRollupList X).Nodup ∧
      ∀ x, x ∈ GetUniqueRollupList X ↔ x ∈ X := by
  rw [getUniqueRollupList_eq]
  exact ⟨rfl, firstOccurrences_nodup X, mem_firstOccurrences X⟩

/-- C10. `GetUniqueRollupList` is idempotent, for every list of rollup specs. -/
theorem C10_getUniqueRollupList_idempotent {α : Type} [DecidableEq α] (X : List α) :
    GetUniqueRollupList (GetUniqueRollupList X) = GetUniqueRollupList X := by
  rw [getUniqueRollupList_eq X, getUniqueRollupList_eq (firstOccurrences X)]
  exact firstOccurrences_of_nodup _ (firstOccurrences_nodup X)

/-! ## Drop-original filter: proofs -/

theorem dropKeys_mem_iff (cfg : DropOriginConfigs) (k : String) :
    k ∈ DropOriginConfigs.keys cfg ↔ ∃ l, DropOriginConfigs.get? cfg k = some l := by
  unfold DropOriginConfigs.keys
  rw [List.mem_dedup]
  induction cfg with
  | nil => simp [DropOriginConfigs.get?]
  | cons p m ih =>
    obtain ⟨k', v'⟩ := p
    by_cases h : k = k'
    · simp [DropOriginConfigs.get?, h]
    · simp [DropOriginConfigs.get?, h, ih]

/-- A loop that binds each key of a list to a value that depends on the key only
yields a map that binds exactly the keys of the list. -/
theorem foldl_bind_keys {β : Type} (f : String → β) (x : String) :
    ∀ (ks : List String) (init : String → Option β),
      ks.foldl (fun result k => fun y => if y = k then some (f k) else result y) init x =
        if x ∈ ks then some (f x) else init x := by
  intro ks
  induction ks with
  | nil => intro init; simp
  | cons k ks ih =>
    intro init
    rw [List.foldl_cons, ih]
    by_cases hx : x ∈ ks
    · simp [hx]
    · by_cases hk : x = k
      · simp [hk]
      · simp [hx, hk]

theorem foldl_insert_mem (x : String) :
    ∀ (v : List String) (set : String → Bool),
      v.foldl (fun set dimension => fun y => decide (y = dimension) || set y) set x =
        (decide (x ∈ v) || set x) := by
  intro v
  induction v with
  | nil => intro set; simp
  | cons a v ih =>
    intro set
    rw [List.foldl_cons, ih]
    by_cases hv : x ∈ v
    · simp [hv]
    · by_cases ha : x = a
      · simp [ha]
      · simp [hv, ha]

/-- The set built from a list of dimensions holds exactly the members of the list. -/
theorem dimensionSet_eq (v : List String) (x : String) :
    dimensionSet v x = decide (x ∈ v) := by
  unfold dimensionSet
  rw [foldl_insert_mem]
  simp

/-- The map built by `GetDroppingDimensionMap` binds the keys of the configuration,
each to the set of its list. -/
theorem getDroppingDimensionMap_eq (cfg : DropOriginConfigs) (m : String) :
    GetDroppingDimensionMap cfg m =
      match DropOriginConfigs.get? cfg m with
      | some l => some (dimensionSet l)
      | none => none := by
  unfold GetDroppingDimensionMap
  simp only
  rw [foldl_bind_keys (fun k => dimensionSet ((DropOriginConfigs.get? cfg k).getD []))]
  cases hget : DropOriginConfigs.get? cfg m with
  | some l =>
    have hmem : m ∈ DropOriginConfigs.keys cfg := (dropKeys_mem_iff cfg m).2 ⟨l, hget⟩
    simp [hmem]
  | none =>
    have hmem : m ∉ DropOriginConfigs.keys cfg := by
      intro h
      obtain ⟨l, hl⟩ := (dropKeys_mem_iff cfg m).1 h
      rw [hget] at hl
      cases hl
    simp [hmem]

theorem isDropping_iff (cfg : DropOriginConfigs) (m d : String) :
    IsDropping (GetDroppingDimensionMap cfg) m d = true ↔
      ∃ l, DropOriginConfigs.get? cfg m = some l ∧ ("*" ∈ l ∨ d ∈ l) := by
  unfold IsDropping
  rw [getDroppingDimensionMap_eq]
  cases hget : DropOriginConfigs.get? cfg m with
  | none => simp
  | some l =>
    simp only [dimensionSet_eq, dropOriginalWildcard, Option.some.injEq, exists_eq_left']
    by_cases hw : "*" ∈ l
    · simp [hw]
    · simp [hw]

/-- C11. Drop-original lookup: over the map that `GetDroppingDimensionMap` builds
from a configuration, `IsDropping m d` is true exactly when the configuration has an
entry for the metric `m` whose list contains `*` or contains `d`. -/
theorem C11_isDropping_iff (cfg : DropOriginConfigs) (m d : String) :
    IsDropping (GetDroppingDimensionMap cfg) m d = true ↔
      ∃ l, DropOriginConfigs.get? cfg m = some l ∧ ("*" ∈ l ∨ d ∈ l) :=
  isDropping_iff cfg m d

/-! ## Submit with retry: proofs -/

/-- The loop of `WriteToCloudWatch` makes at most as many attempts as rounds are
left, and at least one if a round is left. -/
theorem writeLoop_attempts (svc : Nat → PutMetricDataResult) (publishJitter : Nat → Int → Int) :
    ∀ (left i : Nat) (s : WriteResult),
      (writeLoop svc publishJitter left i s).attempts ≤ s.attempts + left ∧
        (0 < left → s.attempts + 1 ≤ (writeLoop svc publishJitter left i s).attempts) := by
  intro left
  induction left with
  | zero => intro i s; simp [writeLoop]
  | succ left ih =>
    intro i s
    rw [writeLoop]
    cases hsvc : svc i with
    | success => simp
    | otherCode c => simp [backoffStep]
    | notAwsErr =>
      have h := ih (i + 1) (backoffStep (publishJitter i) { s with attempts := s.attempts + 1 })
      simp only [backoffStep] at h ⊢
      refine ⟨by omega, fun _ => ?_⟩
      rcases Nat.eq_zero_or_pos left with h0 | h0
      · subst h0; simp [writeLoop]
      · have := h.2 h0; omega
    | limitExceededFault =>
      have h := ih (i + 1) (backoffStep (publishJitter i) { s with attempts := s.attempts + 1 })
      simp only [backoffStep] at h ⊢
      refine ⟨by omega, fun _ => ?_⟩
      rcases Nat.eq_zero_or_pos left with h0 | h0
      · subst h0; simp [writeLoop]
      · have := h.2 h0; omega
    | internalServiceFault =>
      have h := ih (i + 1) (backoffStep (publishJitter i) { s with attempts := s.attempts + 1 })
      simp only [backoffStep] at h ⊢
      refine ⟨by omega, fun _ => ?_⟩
      rcases Nat.eq_zero_or_pos left with h0 | h0
      · subst h0; simp [writeLoop]
      · have := h.2 h0; omega

/-- While every attempt is throttled, the loop of `WriteToCloudWatch` uses up all
the rounds that are left. -/
theorem writeLoop_all_throttled (svc : Nat → PutMetricDataResult)
    (publishJitter : Nat → Int → Int)
    (hsvc : ∀ i, svc i = .limitExceededFault ∨ svc i = .internalServiceFault) :
    ∀ (left i : Nat) (s : WriteResult),
      (writeLoop svc publishJitter left i s).attempts = s.attempts + left := by
  intro left
  induction left with
  | zero => intro i s; simp [writeLoop]
  | succ left ih =>
    intro i s
    rw [writeLoop]
    rcases hsvc i with h | h
    · simp only [h]
      rw [ih]
      simp only [backoffStep]
      omega
    · simp only [h]
      rw [ih]
      simp only [backoffStep]
      omega

/-- C12, the code at the failing input: when every call of `PutMetricData` fails with
`LimitExceededFault`, `WriteToCloudWatch` calls it 5 times, not 6, whatever the jitter
and the retry counter. -/
theorem C12_throttled_attempts (publishJitter : Nat → Int → Int) (retries : Nat) :
    (WriteToCloudWatch (fun _ => PutMetricDataResult.limitExceededFault) publishJitter
        retries).attempts = 5 ∧
      (WriteToCloudWatch (fun _ => PutMetricDataResult.limitExceededFault) publishJitter
        retries).failed = true := by
  constructor
  · unfold WriteToCloudWatch
    rw [writeLoop_all_throttled _ _ (fun _ => Or.inl rfl)]
    rfl
  · simp [WriteToCloudWatch, writeLoop, defaultRetryCount, backoffStep]

/-- C16. Bounded attempts: whatever the API client returns and whatever the jitter,
one call of `WriteToCloudWatch` returns after at least 1 and at most
`defaultRetryCount + 1 = 6` calls of `PutMetricData`. -/
theorem C16_bounded_attempts (svc : Nat → PutMetricDataResult)
    (publishJitter : Nat → Int → Int) (retries : Nat) :
    1 ≤ (WriteToCloudWatch svc publishJitter retries).attempts ∧
      (WriteToCloudWatch svc publishJitter retries).attempts ≤ defaultRetryCount + 1 := by
  have h := writeLoop_attempts svc publishJitter defaultRetryCount 0
    { retries := retries, attempts := 0, sleeps := [], failed := false }
  unfold WriteToCloudWatch
  have h2 := h.2 (by decide)
  simp only at h h2
  omega

/-- Replacing unclassifiable errors by throttles does not change what the loop of
`WriteToCloudWatch` does. -/
theorem writeLoop_notAwsErr (svc : Nat → PutMetricDataResult)
    (publishJitter : Nat → Int → Int)
    (hsvc : ∀ i, svc i = .success ∨ svc i = .notAwsErr) :
    ∀ (left i : Nat) (s : WriteResult),
      writeLoop svc publishJitter left i s =
        writeLoop (asThrottle svc) publishJitter left i s := by
  intro left
  induction left with
  | zero => intro i s; simp [writeLoop]
  | succ left ih =>
    intro i s
    rw [writeLoop, writeLoop]
    rcases hsvc i with h | h
    · simp [asThrottle, h]
    · simp only [asThrottle, h]
      simp only [reduceCtorEq, if_false]
      exact ih _ _

/-- The loop of `WriteToCloudWatch` only adds sleeps behind the ones already made. -/
theorem writeLoop_sleeps_prefix (svc : Nat → PutMetricDataResult)
    (publishJitter : Nat → Int → Int) :
    ∀ (left i : Nat) (s : WriteResult),
      ∃ l, (writeLoop svc publishJitter left i s).sleeps = s.sleeps ++ l := by
  intro left
  induction left with
  | zero => intro i s; exact ⟨[], by simp [writeLoop]⟩
  | succ left ih =>
    intro i s
    rw [writeLoop]
    cases hsvc : svc i with
    | success => exact ⟨[], by simp⟩
    | otherCode c => exact ⟨_, rfl⟩
    | notAwsErr =>
      obtain ⟨l, hl⟩ := ih (i + 1) (backoffStep (publishJitter i) { s with attempts := s.attempts + 1 })
      exact ⟨(backoffSleep (publishJitter i) s.retries).1 :: l, by
        rw [hl]; simp [backoffStep]⟩
    | limitExceededFault =>
      obtain ⟨l, hl⟩ := ih (i + 1) (backoffStep (publishJitter i) { s with attempts := s.attempts + 1 })
      exact ⟨(backoffSleep (publishJitter i) s.retries).1 :: l, by
        rw [hl]; simp [backoffStep]⟩
    | internalServiceFault =>
      obtain ⟨l, hl⟩ := ih (i + 1) (backoffStep (publishJitter i) { s with attempts := s.attempts + 1 })
      exact ⟨(backoffSleep (publishJitter i) s.retries).1 :: l, by
        rw [hl]; simp [backoffStep]⟩

theorem writeLoop_success (svc : Nat → PutMetricDataResult) (publishJitter : Nat → Int → Int)
    (left i : Nat) (s : WriteResult) (h : svc i = .success) :
    writeLoop svc publishJitter (left + 1) i s =
      { s with attempts := s.attempts + 1, retries := 0, failed := false } := by
  rw [writeLoop]
  simp only [h]

theorem writeLoop_limitExceeded (svc : Nat → PutMetricDataResult)
    (publishJitter : Nat → Int → Int) (left i : Nat) (s : WriteResult)
    (h : svc i = .limitExceededFault) :
    writeLoop svc publishJitter (left + 1) i s =
      writeLoop svc publishJitter left (i + 1)
        (backoffStep (publishJitter i) { s with attempts := s.attempts + 1 }) := by
  rw [writeLoop]
  simp only [h]

theorem writeLoop_otherCode (svc : Nat → PutMetricDataResult) (publishJitter : Nat → Int → Int)
    (left i : Nat) (s : WriteResult) (code : String) (h : svc i = .otherCode code) :
    writeLoop svc publishJitter (left + 1) i s =
      backoffStep (publishJitter i) { s with attempts := s.attempts + 1 } := by
  rw [writeLoop]
  simp only [h]

/-- When the failures are other structured service errors, `WriteToCloudWatch` stops
after the first attempt, with the first sleep of the throttled run if it failed. -/
theorem writeToCloudWatch_otherCode (svc : Nat → PutMetricDataResult)
    (publishJitter : Nat → Int → Int) (retries : Nat)
    (hsvc : ∀ i, svc i = .success ∨ ∃ code, svc i = .otherCode code) :
    (WriteToCloudWatch svc publishJitter retries).attempts = 1 ∧
      (WriteToCloudWatch svc publishJitter retries).sleeps =
        (WriteToCloudWatch (asThrottle svc) publishJitter retries).sleeps.take 1 ∧
      (WriteToCloudWatch svc publishJitter retries).sleeps.length ≤ 1 := by
  have hA : WriteToCloudWatch svc publishJitter retries =
      writeLoop svc publishJitter (4 + 1) 0
        { retries := retries, attempts := 0, sleeps := [], failed := false } := rfl
  have hB : WriteToCloudWatch (asThrottle svc) publishJitter retries =
      writeLoop (asThrottle svc) publishJitter (4 + 1) 0
        { retries := retries, attempts := 0, sleeps := [], failed := false } := rfl
  rw [hA, hB]
  rcases hsvc 0 with h | ⟨code, h⟩
  · have h' : asThrottle svc 0 = .success := by simp [asThrottle, h]
    rw [writeLoop_success _ _ _ _ _ h, writeLoop_success _ _ _ _ _ h']
    simp
  · have h' : asThrottle svc 0 = .limitExceededFault := by simp [asThrottle, h]
    rw [writeLoop_otherCode _ _ _ _ _ code h, writeLoop_limitExceeded _ _ _ _ _ h']
    obtain ⟨l, hl⟩ := writeLoop_sleeps_prefix (asThrottle svc) publishJitter 4 (0 + 1)
      (backoffStep (publishJitter 0)
        { retries := retries, attempts := 0 + 1, sleeps := [], failed := false })
    rw [hl]
    simp [backoffStep]

/-- C13, the code at the failing input: when every call of `PutMetricData` fails with
a structured service error of another code (here `ValidationError`),
`WriteToCloudWatch` makes 1 attempt and 1 sleep and then drops the batch, whatever
the jitter and the retry counter; when every call fails with `LimitExceededFault` it
makes 5 attempts and 5 sleeps. The other error is not retried like a throttle. -/
theorem C13_other_code_attempts (publishJitter : Nat → Int → Int) (retries : Nat) :
    (WriteToCloudWatch (fun _ => PutMetricDataResult.otherCode "ValidationError") publishJitter
        retries).attempts = 1 ∧
      (WriteToCloudWatch (fun _ => PutMetricDataResult.otherCode "ValidationError") publishJitter
        retries).sleeps.length = 1 ∧
      (WriteToCloudWatch (fun _ => PutMetricDataResult.otherCode "ValidationError") publishJitter
        retries).failed = true ∧
      (WriteToCloudWatch (fun _ => PutMetricDataResult.limitExceededFault) publishJitter
        retries).attempts = 5 ∧
      (WriteToCloudWatch (fun _ => PutMetricDataResult.limitExceededFault) publishJitter
        retries).sleeps.length = 5 := by
  refine ⟨?_, ?_, ?_, ?_, ?_⟩
  · simp [WriteToCloudWatch, writeLoop, defaultRetryCount, backoffStep]
  · simp [WriteToCloudWatch, writeLoop, defaultRetryCount, backoffStep]
  · simp [WriteToCloudWatch, writeLoop, defaultRetryCount, backoffStep]
  · unfold WriteToCloudWatch
    rw [writeLoop_all_throttled _ _ (fun _ => Or.inl rfl)]
    rfl
  · simp [WriteToCloudWatch, writeLoop, defaultRetryCount, backoffStep]

/-- C14. Unclassifiable errors are retried like throttles: when the failures are
errors that are not an `awserr.Error`, `WriteToCloudWatch` makes the same attempts
and the same sleeps, and ends with the same retry counter and the same verdict, as
when those failures are `LimitExceededFault`. -/
theorem C14_unclassifiable_like_throttle (svc : Nat → PutMetricDataResult)
    (publishJitter : Nat → Int → Int) (retries : Nat)
    (hsvc : ∀ i, svc i = .success ∨ svc i = .notAwsErr) :
    (WriteToCloudWatch svc publishJitter retries).attempts =
        (WriteToCloudWatch (asThrottle svc) publishJitter retries).attempts ∧
      (WriteToCloudWatch svc publishJitter retries).sleeps =
        (WriteToCloudWatch (asThrottle svc) publishJitter retries).sleeps ∧
      WriteToCloudWatch svc publishJitter retries =
        WriteToCloudWatch (asThrottle svc) publishJitter retries := by
  have h : WriteToCloudWatch svc publishJitter retries =
      WriteToCloudWatch (asThrottle svc) publishJitter retries :=
    writeLoop_notAwsErr svc publishJitter hsvc _ _ _
  exact ⟨by rw [h], by rw [h], h⟩

/-- Witness of C14: two unclassifiable errors, then success. -/
theorem C14_unclassifiable_like_throttle_witness :
    (∀ i : Nat,
      (fun i => if i < 2 then PutMetricDataResult.notAwsErr else PutMetricDataResult.success) i =
        PutMetricDataResult.success ∨
      (fun i => if i < 2 then PutMetricDataResult.notAwsErr else PutMetricDataResult.success) i =
        PutMetricDataResult.notAwsErr) ∧
    ((WriteToCloudWatch
        (fun i => if i < 2 then PutMetricDataResult.notAwsErr else PutMetricDataResult.success)
        (fun _ _ => 7) 0).attempts =
      (WriteToCloudWatch (asThrottle
        (fun i => if i < 2 then PutMetricDataResult.notAwsErr else PutMetricDataResult.success))
        (fun _ _ => 7) 0).attempts ∧
    (WriteToCloudWatch
        (fun i => if i < 2 then PutMetricDataResult.notAwsErr else PutMetricDataResult.success)
        (fun _ _ => 7) 0).sleeps =
      (WriteToCloudWatch (asThrottle
        (fun i => if i < 2 then PutMetricDataResult.notAwsErr else PutMetricDataResult.success))
        (fun _ _ => 7) 0).sleeps ∧
    WriteToCloudWatch
        (fun i => if i < 2 then PutMetricDataResult.notAwsErr else PutMetricDataResult.success)
        (fun _ _ => 7) 0 =
      WriteToCloudWatch (asThrottle
        (fun i => if i < 2 then PutMetricDataResult.notAwsErr else PutMetricDataResult.success))
        (fun _ _ => 7) 0) :=
  ⟨fun i => by by_cases h : i < 2 <;> simp [h],
    C14_unclassifiable_like_throttle _ (fun _ _ => 7) 0
      (fun i => by by_cases h : i < 2 <;> simp [h])⟩

theorem backoffSleep_retries (publishJitter : Int → Int) (retries : Nat) :
    (backoffSleep publishJitter retries).2 = retries + 1 := rfl

/-- A run of `k - i` throttled attempts followed by a success: the loop of
`WriteToCloudWatch` makes `k - i + 1` attempts, one sleep per throttled attempt, and
resets the retry counter. -/
theorem writeLoop_throttled_then_success (svc : Nat → PutMetricDataResult)
    (publishJitter : Nat → Int → Int) (k : Nat) (hok : svc k = .success) :
    ∀ (left i : Nat) (s : WriteResult), i ≤ k → k < i + left →
      (∀ j, i ≤ j → j < k → svc j = .limitExceededFault) →
      writeLoop svc publishJitter left i s =
        { retries := 0
          attempts := s.attempts + (k - i) + 1
          sleeps := s.sleeps ++ (List.range (k - i)).map
            (fun m => (backoffSleep (publishJitter (i + m)) (s.retries + m)).1)
          failed := false } := by
  intro left
  induction left with
  | zero => intro i s hik hlt _; omega
  | succ left ih =>
    intro i s hik hlt hthr
    rcases Nat.eq_or_lt_of_le hik with heq | hlt'
    · subst heq
      rw [writeLoop_success _ _ _ _ _ hok]
      simp
    · rw [writeLoop_limitExceeded _ _ _ _ _ (hthr i (le_refl i) hlt')]
      rw [ih (i + 1) _ (by omega) (by omega) (fun j hj hjk => hthr j (by omega) hjk)]
      obtain ⟨n, hn⟩ : ∃ n, k - i = n + 1 := ⟨k - i - 1, by omega⟩
      have hn' : k - (i + 1) = n := by omega
      rw [hn, hn', List.range_succ_eq_map]
      simp only [backoffStep, backoffSleep_retries, List.map_cons, List.map_map,
        List.append_assoc, List.singleton_append, Nat.add_zero]
      congr 1
      · omega
      · congr 2
        apply List.map_congr_left
        intro m _
        simp only [Function.comp, Nat.succ_eq_add_one]
        rw [show i + 1 + m = i + (m + 1) by omega, show s.retries + 1 + m = s.retries + (m + 1) by omega]

theorem backoffBase_of_le (n : Nat) (h : n ≤ 5) : backoffBase n = 200000000 * 2 ^ n := by
  simp [backoffBase, defaultRetryCount, h, backoffRetryBase, millisecond]

theorem backoffBase_of_gt (n : Nat) (h : 5 < n) : backoffBase n = 60000000000 := by
  have h' : ¬ n ≤ 5 := by omega
  simp [backoffBase, defaultRetryCount, h', minute]

theorem backoffBase_nonneg (n : Nat) : 0 ≤ backoffBase n := by
  by_cases h : n ≤ 5
  · rw [backoffBase_of_le n h]
    positivity
  · rw [backoffBase_of_gt n (by omega)]
    decide

/-- With a jitter in `[0, d/2)`, the sleep of `backoffSleep` is `d/2` plus the jitter
and lies in `[d/2, d)`, where `d` is the duration before the jitter. -/
theorem backoffSleep_bounds (publishJitter : Int → Int) (n : Nat)
    (hj : 0 ≤ publishJitter (backoffBase n / 2) ∧
      publishJitter (backoffBase n / 2) < backoffBase n / 2) :
    (backoffSleep publishJitter n).1 = backoffBase n / 2 + publishJitter (backoffBase n / 2) ∧
      backoffBase n / 2 ≤ (backoffSleep publishJitter n).1 ∧
      (backoffSleep publishJitter n).1 < backoffBase n := by
  have h0 := backoffBase_nonneg n
  have hdiv : Int.tdiv (backoffBase n) 2 = backoffBase n / 2 :=
    Int.tdiv_eq_ediv h0 (by decide)
  simp only [backoffSleep, hdiv]
  refine ⟨trivial, ?_, ?_⟩ <;> omega

/-- For a retry counter of at most 5, the sleep is at least `100 ms * 2^n` and less
than `200 ms * 2^n`, provided the jitter lies in `[0, x)` for its argument `x`. -/
theorem backoffSleep_bounds_of_le (publishJitter : Int → Int) (n : Nat) (h : n ≤ 5)
    (hj : ∀ x, 0 < x → 0 ≤ publishJitter x ∧ publishJitter x < x) :
    100000000 * 2 ^ n ≤ (backoffSleep publishJitter n).1 ∧
      (backoffSleep publishJitter n).1 < 200000000 * 2 ^ n := by
  have hx : (0 : Int) < 2 ^ n := by positivity
  have hb := backoffBase_of_le n h
  have hhalf : backoffBase n / 2 = 100000000 * 2 ^ n := by
    rw [hb]
    generalize (2 : Int) ^ n = x at hx
    omega
  have hjit := hj (backoffBase n / 2) (by rw [hhalf]; omega)
  have hbnd := backoffSleep_bounds publishJitter n hjit
  rw [hhalf] at hbnd
  rw [hb] at hbnd
  exact ⟨hbnd.2.1, hbnd.2.2⟩

/-- C15. Success after throttling: from a retry counter of 0, when `PutMetricData`
fails `k ≤ 4` times with `LimitExceededFault` and then succeeds, and every jitter
lies in `[0, x)` for its argument `x`, `WriteToCloudWatch` makes `k + 1` attempts and
`k` sleeps, the `i`-th sleep lies in `[100 ms * 2^i, 200 ms * 2^i)`, the batch is not
dropped, and the retry counter is 0 at the return. -/
theorem C15_success_after_throttling (svc : Nat → PutMetricDataResult)
    (publishJitter : Nat → Int → Int) (k : Nat) (hk : k ≤ 4)
    (hthr : ∀ i, i < k → svc i = .limitExceededFault) (hok : svc k = .success)
    (hj : ∀ i x, 0 < x → 0 ≤ publishJitter i x ∧ publishJitter i x < x) :
    (WriteToCloudWatch svc publishJitter 0).attempts = k + 1 ∧
      (WriteToCloudWatch svc publishJitter 0).retries = 0 ∧
      (WriteToCloudWatch svc publishJitter 0).failed = false ∧
      (WriteToCloudWatch svc publishJitter 0).sleeps.length = k ∧
      ∀ i, i < k → ∃ d, (WriteToCloudWatch svc publishJitter 0).sleeps[i]? = some d ∧
        100000000 * 2 ^ i ≤ d ∧ d < 200000000 * 2 ^ i := by
  have hrun := writeLoop_throttled_then_success svc publishJitter k hok defaultRetryCount 0
    { retries := 0, attempts := 0, sleeps := [], failed := false } (Nat.zero_le k)
    (by simp only [defaultRetryCount]; omega) (fun j _ hjk => hthr j hjk)
  unfold WriteToCloudWatch
  rw [hrun]
  simp only [Nat.sub_zero, Nat.zero_add, List.nil_append, List.length_map, List.length_range,
    true_and]
  intro i hi
  refine ⟨(backoffSleep (publishJitter i) i).1, ?_, ?_⟩
  · rw [List.getElem?_map, List.getElem?_range hi]
    rfl
  · exact backoffSleep_bounds_of_le (publishJitter i) i (by omega) (hj i)

/-- Witness of C15: two throttles, then success, with the largest jitter allowed. -/
theorem C15_success_after_throttling_witness :
    2 ≤ 4 ∧
    (∀ i : Nat, i < 2 →
      (fun i => if i < 2 then PutMetricDataResult.limitExceededFault
        else PutMetricDataResult.success) i = PutMetricDataResult.limitExceededFault) ∧
    (fun i => if i < 2 then PutMetricDataResult.limitExceededFault
      else PutMetricDataResult.success) 2 = PutMetricDataResult.success ∧
    (∀ (i : Nat) (x : Int), 0 < x →
      0 ≤ (fun (_ : Nat) (x : Int) => x - 1) i x ∧ (fun (_ : Nat) (x : Int) => x - 1) i x < x) ∧
    ((WriteToCloudWatch (fun i => if i < 2 then PutMetricDataResult.limitExceededFault
        else PutMetricDataResult.success) (fun _ x => x - 1) 0).attempts = 2 + 1 ∧
      (WriteToCloudWatch (fun i => if i < 2 then PutMetricDataResult.limitExceededFault
        else PutMetricDataResult.success) (fun _ x => x - 1) 0).retries = 0 ∧
      (WriteToCloudWatch (fun i => if i < 2 then PutMetricDataResult.limitExceededFault
        else PutMetricDataResult.success) (fun _ x => x - 1) 0).failed = false ∧
      (WriteToCloudWatch (fun i => if i < 2 then PutMetricDataResult.limitExceededFault
        else PutMetricDataResult.success) (fun _ x => x - 1) 0).sleeps.length = 2 ∧
      ∀ i, i < 2 → ∃ d,
        (WriteToCloudWatch (fun i => if i < 2 then PutMetricDataResult.limitExceededFault
          else PutMetricDataResult.success) (fun _ x => x - 1) 0).sleeps[i]? = some d ∧
        100000000 * 2 ^ i ≤ d ∧ d < 200000000 * 2 ^ i) :=
  ⟨by decide, fun i hi => by simp [hi], by simp, fun _ x hx => by simp only; constructor <;> omega,
    C15_success_after_throttling _ (fun _ x => x - 1) 2 (by decide)
      (fun i hi => by simp [hi]) (by simp) (fun _ x hx => by simp only; constructor <;> omega)⟩

/-- The retry scenario: two throttles and a success give 3 attempts and two sleeps,
here the longest the jitter allows, just below 200 ms and 400 ms. -/
theorem writeToCloudWatch_scenario :
    WriteToCloudWatch (fun i => if i < 2 then PutMetricDataResult.limitExceededFault
        else PutMetricDataResult.success) (fun _ x => x - 1) 0 =
      { retries := 0, attempts := 3, sleeps := [199999999, 399999999], failed := false } := by
  decide

/-- C17. Backoff duration: for a retry counter `n` and a jitter `j` with
`0 ≤ j < d/2`, where `d` is `200 ms * 2^n` when `n ≤ 5` and 1 minute otherwise,
`backoffSleep` sleeps for `d/2 + j`, which lies in `[d/2, d)`, and increments the
retry counter by 1. Durations are in nanoseconds. -/
theorem C17_backoff_duration (publishJitter : Int → Int) (n : Nat) (d : Int)
    (hd : d = if n ≤ 5 then 200000000 * 2 ^ n else 60000000000)
    (hj : 0 ≤ publishJitter (d / 2) ∧ publishJitter (d / 2) < d / 2) :
    (backoffSleep publishJitter n).1 = d / 2 + publishJitter (d / 2) ∧
      d / 2 ≤ (backoffSleep publishJitter n).1 ∧
      (backoffSleep publishJitter n).1 < d ∧
      (backoffSleep publishJitter n).2 = n + 1 := by
  have hbase : backoffBase n = d := by
    by_cases h : n ≤ 5
    · rw [backoffBase_of_le n h, hd, if_pos h]
    · rw [backoffBase_of_gt n (by omega), hd, if_neg h]
  have hbnd := backoffSleep_bounds publishJitter n (by rw [hbase]; exact hj)
  rw [hbase] at hbnd
  exact ⟨hbnd.1, hbnd.2.1, hbnd.2.2, rfl⟩

/-- Witness of C17: retry counter 3, `d` = 1.6 s, jitter 5 ns. -/
theorem C17_backoff_duration_witness :
    (1600000000 : Int) = (if 3 ≤ 5 then 200000000 * 2 ^ 3 else 60000000000) ∧
    ((0 : Int) ≤ (fun _ : Int => (5 : Int)) (1600000000 / 2) ∧
      (fun _ : Int => (5 : Int)) (1600000000 / 2) < 1600000000 / 2) ∧
    ((backoffSleep (fun _ => 5) 3).1 = 1600000000 / 2 + (fun _ : Int => (5 : Int)) (1600000000 / 2) ∧
      (1600000000 : Int) / 2 ≤ (backoffSleep (fun _ => 5) 3).1 ∧
      (backoffSleep (fun _ => 5) 3).1 < 1600000000 ∧
      (backoffSleep (fun _ => 5) 3).2 = 3 + 1) :=
  ⟨by decide, by decide, C17_backoff_duration (fun _ => 5) 3 1600000000 (by decide) (by decide)⟩

/-- C18 as stated fails: at a retry counter of 6 the claimed upper end
`min(200 ms * 2^6, 1 min)` is 12.8 s, but `backoffSleep` takes 1 minute as its base
and sleeps 30 s even with a jitter of 0. -/
theorem C18_counterexample :
    (backoffSleep (fun _ => 0) 6).1 = 30000000000 ∧
      ¬ (backoffSleep (fun _ => 0) 6).1 < min (200000000 * 2 ^ 6) 60000000000 := by
  decide

/-- C18, amended. With a jitter in `[0, x)` for its argument `x`: for a retry counter
`n ≤ 5` or `n ≥ 9` the sleep of `backoffSleep` lies in
`[min(200 ms * 2^n, 1 min)/2, min(200 ms * 2^n, 1 min))`; for `n` = 6, 7, 8 the base
is 1 minute and the sleep lies in `[30 s, 1 min)`. -/
theorem C18_backoff_bound (publishJitter : Int → Int) (n : Nat)
    (hj : ∀ x, 0 < x → 0 ≤ publishJitter x ∧ publishJitter x < x) :
    ((n ≤ 5 ∨ 9 ≤ n) →
        min (200000000 * 2 ^ n) 60000000000 / 2 ≤ (backoffSleep publishJitter n).1 ∧
        (backoffSleep publishJitter n).1 < min (200000000 * 2 ^ n) 60000000000) ∧
      ((6 ≤ n ∧ n ≤ 8) →
        30000000000 ≤ (backoffSleep publishJitter n).1 ∧
        (backoffSleep publishJitter n).1 < 60000000000) := by
  have hlong : 5 < n → 30000000000 ≤ (backoffSleep publishJitter n).1 ∧
      (backoffSleep publishJitter n).1 < 60000000000 := by
    intro h
    have hb := backoffBase_of_gt n h
    have hbnd := backoffSleep_bounds publishJitter n
      (hj (backoffBase n / 2) (by rw [hb]; decide))
    rw [hb] at hbnd
    exact ⟨by have := hbnd.2.1; omega, hbnd.2.2⟩
  constructor
  · rintro (h | h)
    · have hmin : min ((200000000 : Int) * 2 ^ n) 60000000000 = 200000000 * 2 ^ n := by
        interval_cases n <;> decide
      have hx : (0 : Int) < 2 ^ n := by positivity
      have hb := backoffSleep_bounds_of_le publishJitter n h hj
      rw [hmin]
      generalize (2 : Int) ^ n = x at hx hb ⊢
      omega
    · have hpow : (2 : Int) ^ 9 ≤ 2 ^ n := pow_le_pow_right₀ (by decide) h
      have hmin : min ((200000000 : Int) * 2 ^ n) 60000000000 = 60000000000 := by
        apply min_eq_right
        have : (2 : Int) ^ 9 = 512 := by decide
        omega
      rw [hmin]
      have := hlong (by omega)
      omega
  · rintro ⟨h6, _⟩
    exact hlong (by omega)

/-- Witness of C18 (amended): retry counter 2 with a jitter of 0, so that the sleep
is 400 ms, the lower end of `[400 ms, 800 ms)`. -/
theorem C18_backoff_bound_witness :
    (∀ x : Int, 0 < x → 0 ≤ (fun _ : Int => (0 : Int)) x ∧ (fun _ : Int => (0 : Int)) x < x) ∧
    (((2 ≤ 5 ∨ 9 ≤ 2) →
        min (200000000 * 2 ^ 2) 60000000000 / 2 ≤ (backoffSleep (fun _ => 0) 2).1 ∧
        (backoffSleep (fun _ => 0) 2).1 < min (200000000 * 2 ^ 2) 60000000000) ∧
      ((6 ≤ 2 ∧ 2 ≤ 8) →
        30000000000 ≤ (backoffSleep (fun _ => 0) 2).1 ∧
        (backoffSleep (fun _ => 0) 2).1 < 60000000000)) :=
  ⟨fun _ hx => ⟨le_refl 0, hx⟩, C18_backoff_bound (fun _ => 0) 2 (fun _ hx => ⟨le_refl 0, hx⟩)⟩

/-! ## Flush controller: proofs -/

theorem validate_interval (cfg : Config) (h : Validate cfg = none) :
    1000000 ≤ cfg.ForceFlushInterval := by
  unfold Validate at h
  split at h
  · cases h
  · split at h
    · cases h
    · split at h
      · cases h
      · rename_i hlt
        simp only [millisecond] at hlt
        omega

theorem intervalInv_adapt (forceFlushInterval : Int) (s : PublishState) (inp : PublishInput)
    (hs : IntervalInv forceFlushInterval s) :
    IntervalInv forceFlushInterval (publishAdapt s inp) := by
  obtain ⟨h1, h2⟩ := hs
  unfold publishAdapt
  split
  · split
    · simp only
      split
      · rename_i hgt
        simp only [second] at hgt h1 ⊢
        have hdiv : Int.tdiv s.currentInterval 2 = s.currentInterval / 2 :=
          Int.tdiv_eq_ediv (by omega) (by decide)
        unfold IntervalInv
        simp only [hdiv, second]
        split
        · constructor
          · exact min_le_left _ _
          · omega
        · rename_i hge
          constructor
          · exact le_trans (min_le_left _ _) (by omega)
          · omega
      · exact ⟨h1, h2⟩
    · exact ⟨h1, h2⟩
  · exact ⟨h1, h2⟩

/-- One round of the loop of `publish` keeps the interval within its bounds. -/
theorem intervalInv_round (forceFlushInterval : Int) (s : PublishState) (inp : PublishInput)
    (hs : IntervalInv forceFlushInterval s) :
    IntervalInv forceFlushInterval (publishRound forceFlushInterval s inp).state := by
  have ha := intervalInv_adapt forceFlushInterval s inp hs
  unfold publishRound
  simp only
  generalize publishAdapt s inp = a at ha
  obtain ⟨h1, h2⟩ := ha
  by_cases hwake : inp.nowMs ≥ a.nextMs
  · simp only [hwake, if_true, decide_True]
    by_cases hb : a.bufferFullOccurred
    · simp only [hb, Bool.not_true, Bool.false_eq_true, if_false]
      exact ⟨h1, h2⟩
    · simp only [hb, Bool.not_false, if_true]
      exact ⟨min_le_right _ _, le_refl _⟩
  · simp only [hwake, if_false, decide_False, Bool.false_eq_true]
    exact ⟨h1, h2⟩

theorem intervalInv_loop (forceFlushInterval : Int) :
    ∀ (inputs : List PublishInput) (s : PublishState), IntervalInv forceFlushInterval s →
      IntervalInv forceFlushInterval (publishLoop forceFlushInterval s inputs) := by
  intro inputs
  induction inputs with
  | nil => intro s hs; exact hs
  | cons inp inputs ih =>
    intro s hs
    exact ih _ (intervalInv_round forceFlushInterval s inp hs)

/-- With an interval of at least 1 ms, a time of at least 0 and a jitter in
`[0, interval)`, `getFirstPushMs` does not panic and returns the time rounded down
to a multiple of the interval in milliseconds, plus the jitter in milliseconds,
plus one interval if that is before the time. -/
theorem getFirstPushMs_eq (interval : Int) (publishJitter : Int → Int) (nowMs : Int)
    (hint : 1000000 ≤ interval) (hnow : 0 ≤ nowMs) (hj : 0 ≤ publishJitter interval) :
    getFirstPushMs interval publishJitter nowMs =
      some (if nowMs - nowMs % (interval / 1000000) + publishJitter interval / 1000000 < nowMs
        then nowMs - nowMs % (interval / 1000000) + publishJitter interval / 1000000 +
          interval / 1000000
        else nowMs - nowMs % (interval / 1000000) + publishJitter interval / 1000000) := by
  have hI : Milliseconds interval = interval / 1000000 :=
    Int.tdiv_eq_ediv (by omega) (by decide)
  have hJ : Milliseconds (publishJitter interval) = publishJitter interval / 1000000 :=
    Int.tdiv_eq_ediv hj (by decide)
  have hIpos : 0 < interval / 1000000 := by omega
  have hmod : Int.tmod nowMs (interval / 1000000) = nowMs % (interval / 1000000) :=
    Int.tmod_eq_emod hnow (le_of_lt hIpos)
  unfold getFirstPushMs
  simp only [hI, hJ, hmod]
  rw [if_neg (ne_of_gt hIpos)]
  split <;> rfl

/-- C19 as stated fails: a configuration with a flush interval of 500 ms is accepted
by `Validate`, and `publish` starts with `currentInterval` = 500 ms, below 1 s. -/
theorem C19_counterexample :
    Validate { Region := "us-east-1", Namespace := "N", ForceFlushInterval := 500000000,
               MaxDatumsPerCall := 1000, MaxValuesPerDatum := 150 } = none ∧
      publishStart 500000000 (fun _ => 0) 0 =
        some { currentInterval := 500000000, nextMs := 0, bufferFullOccurred := false } ∧
      ¬ second ≤
        (publishLoop 500000000
          { currentInterval := 500000000, nextMs := 0, bufferFullOccurred := false }
          []).currentInterval := by
  decide

/-- C19, amended. Adaptive interval bound: for a configuration accepted by
`Validate`, `publish` starts its loop (no panic), and after any number of rounds,
whatever the clock readings and the fill levels of the batch channel,
`min(1 s, ForceFlushInterval) ≤ currentInterval ≤ ForceFlushInterval`; so
`1 s ≤ currentInterval` when `ForceFlushInterval` is at least 1 s. -/
theorem C19_interval_bound (cfg : Config) (publishJitter : Int → Int) (nowMs : Int)
    (inputs : List PublishInput) (hvalid : Validate cfg = none) :
    ∃ s0, publishStart cfg.ForceFlushInterval publishJitter nowMs = some s0 ∧
      min second cfg.ForceFlushInterval ≤
        (publishLoop cfg.ForceFlushInterval s0 inputs).currentInterval ∧
      (publishLoop cfg.ForceFlushInterval s0 inputs).currentInterval ≤ cfg.ForceFlushInterval ∧
      (second ≤ cfg.ForceFlushInterval →
        second ≤ (publishLoop cfg.ForceFlushInterval s0 inputs).currentInterval) := by
  have hF := validate_interval cfg hvalid
  have hms : Milliseconds cfg.ForceFlushInterval ≠ 0 := by
    have hI : Milliseconds cfg.ForceFlushInterval = cfg.ForceFlushInterval / 1000000 :=
      Int.tdiv_eq_ediv (by omega) (by decide)
    rw [hI]
    omega
  have hstart : ∃ nextMs, getFirstPushMs cfg.ForceFlushInterval publishJitter nowMs =
      some nextMs := by
    unfold getFirstPushMs
    simp only [hms, if_false]
    split
    · exact ⟨_, rfl⟩
    · exact ⟨_, rfl⟩
  obtain ⟨nextMs, hnext⟩ := hstart
  refine ⟨{ currentInterval := cfg.ForceFlushInterval, nextMs := nextMs,
            bufferFullOccurred := false }, ?_, ?_⟩
  · simp [publishStart, hnext]
  · have hinv := intervalInv_loop cfg.ForceFlushInterval inputs
      { currentInterval := cfg.ForceFlushInterval, nextMs := nextMs,
        bufferFullOccurred := false } ⟨min_le_right _ _, le_refl _⟩
    refine ⟨hinv.1, hinv.2, fun h => ?_⟩
    have := hinv.1
    rwa [min_eq_left h] at this

/-- Witness of C19 (amended): an interval of 3 s, the channel full in the first two
rounds. -/
theorem C19_interval_bound_witness :
    Validate { Region := "us-east-1", Namespace := "N", ForceFlushInterval := 3000000000,
               MaxDatumsPerCall := 1000, MaxValuesPerDatum := 150 } = none ∧
    ∃ s0, publishStart
        ({ Region := "us-east-1", Namespace := "N", ForceFlushInterval := 3000000000,
           MaxDatumsPerCall := 1000, MaxValuesPerDatum := 150 } : Config).ForceFlushInterval
        (fun _ => 0) 100 = some s0 ∧
      min second
          ({ Region := "us-east-1", Namespace := "N", ForceFlushInterval := 3000000000,
             MaxDatumsPerCall := 1000, MaxValuesPerDatum := 150 } : Config).ForceFlushInterval ≤
        (publishLoop
          ({ Region := "us-east-1", Namespace := "N", ForceFlushInterval := 3000000000,
             MaxDatumsPerCall := 1000, MaxValuesPerDatum := 150 } : Config).ForceFlushInterval s0
          [{ nowMs := 100, batchFull := true }, { nowMs := 1100, batchFull := true },
            { nowMs := 2100, batchFull := false }]).currentInterval ∧
      (publishLoop
          ({ Region := "us-east-1", Namespace := "N", ForceFlushInterval := 3000000000,
             MaxDatumsPerCall := 1000, MaxValuesPerDatum := 150 } : Config).ForceFlushInterval s0
          [{ nowMs := 100, batchFull := true }, { nowMs := 1100, batchFull := true },
            { nowMs := 2100, batchFull := false }]).currentInterval ≤
        ({ Region := "us-east-1", Namespace := "N", ForceFlushInterval := 3000000000,
           MaxDatumsPerCall := 1000, MaxValuesPerDatum := 150 } : Config).ForceFlushInterval ∧
      (second ≤
          ({ Region := "us-east-1", Namespace := "N", ForceFlushInterval := 3000000000,
             MaxDatumsPerCall := 1000, MaxValuesPerDatum := 150 } : Config).ForceFlushInterval →
        second ≤ (publishLoop
          ({ Region := "us-east-1", Namespace := "N", ForceFlushInterval := 3000000000,
             MaxDatumsPerCall := 1000, MaxValuesPerDatum := 150 } : Config).ForceFlushInterval s0
          [{ nowMs := 100, batchFull := true }, { nowMs := 1100, batchFull := true },
            { nowMs := 2100, batchFull := false }]).currentInterval) :=
  ⟨by decide,
    C19_interval_bound
      { Region := "us-east-1", Namespace := "N", ForceFlushInterval := 3000000000,
        MaxDatumsPerCall := 1000, MaxValuesPerDatum := 150 }
      (fun _ => 0) 100
      [{ nowMs := 100, batchFull := true }, { nowMs := 1100, batchFull := true },
        { nowMs := 2100, batchFull := false }] (by decide)⟩

/-- C20. First push time: for an interval of at least 1 ms, a current time
`nowMs ≥ 0` and a jitter in `[0, interval)`, `getFirstPushMs` returns (without a
panic) `nowMs` rounded down to a multiple of the interval in whole milliseconds,
plus the jitter in whole milliseconds, plus one interval if that sum is before
`nowMs`; the result `t`, a time in milliseconds, is at least `nowMs` and before
`nowMs` plus the interval. Durations are in nanoseconds. -/
theorem C20_first_push_time (interval : Int) (publishJitter : Int → Int) (nowMs : Int)
    (hint : 1000000 ≤ interval) (hnow : 0 ≤ nowMs)
    (hj : 0 ≤ publishJitter interval ∧ publishJitter interval < interval) :
    ∃ t, getFirstPushMs interval publishJitter nowMs = some t ∧
      t = (if nowMs - nowMs % (interval / 1000000) + publishJitter interval / 1000000 < nowMs
        then nowMs - nowMs % (interval / 1000000) + publishJitter interval / 1000000 +
          interval / 1000000
        else nowMs - nowMs % (interval / 1000000) + publishJitter interval / 1000000) ∧
      (interval / 1000000 ∣ nowMs - nowMs % (interval / 1000000) ∧
        nowMs - nowMs % (interval / 1000000) ≤ nowMs ∧
        nowMs < nowMs - nowMs % (interval / 1000000) + interval / 1000000) ∧
      nowMs ≤ t ∧ t * 1000000 < nowMs * 1000000 + interval := by
  have hIpos : 0 < interval / 1000000 := by omega
  have hr0 : 0 ≤ nowMs % (interval / 1000000) := Int.emod_nonneg _ (ne_of_gt hIpos)
  have hr1 : nowMs % (interval / 1000000) < interval / 1000000 := Int.emod_lt_of_pos _ hIpos
  have hdvd : interval / 1000000 ∣ nowMs - nowMs % (interval / 1000000) :=
    Int.dvd_sub_of_emod_eq rfl
  refine ⟨_, getFirstPushMs_eq interval publishJitter nowMs hint hnow hj.1, rfl,
    ⟨hdvd, by omega, by omega⟩, ?_⟩
  generalize nowMs % (interval / 1000000) = r at hr0 hr1
  split <;> constructor <;> omega

/-- Witness of C20: an interval of 60 s, a jitter of 7 s, at time 1234567 ms. -/
theorem C20_first_push_time_witness :
    (1000000 : Int) ≤ 60000000000 ∧ (0 : Int) ≤ 1234567 ∧
    ((0 : Int) ≤ (fun _ : Int => (7000000000 : Int)) 60000000000 ∧
      (fun _ : Int => (7000000000 : Int)) 60000000000 < 60000000000) ∧
    ∃ t, getFirstPushMs 60000000000 (fun _ => 7000000000) 1234567 = some t ∧
      t = (if (1234567 : Int) - 1234567 % (60000000000 / 1000000) +
            (fun _ : Int => (7000000000 : Int)) 60000000000 / 1000000 < 1234567
        then (1234567 : Int) - 1234567 % (60000000000 / 1000000) +
          (fun _ : Int => (7000000000 : Int)) 60000000000 / 1000000 + 60000000000 / 1000000
        else (1234567 : Int) - 1234567 % (60000000000 / 1000000) +
          (fun _ : Int => (7000000000 : Int)) 60000000000 / 1000000) ∧
      ((60000000000 : Int) / 1000000 ∣ 1234567 - 1234567 % (60000000000 / 1000000) ∧
        (1234567 : Int) - 1234567 % (60000000000 / 1000000) ≤ 1234567 ∧
        (1234567 : Int) < 1234567 - 1234567 % (60000000000 / 1000000) + 60000000000 / 1000000) ∧
      1234567 ≤ t ∧ t * 1000000 < 1234567 * 1000000 + 60000000000 :=
  ⟨by decide, by decide, by decide,
    C20_first_push_time 60000000000 (fun _ => 7000000000) 1234567 (by decide) (by decide)
      (by decide)⟩

/-- The first push at time 1234567 ms with an interval of 60 s and a jitter of 7 s
is at 1267000 ms: 1200000 + 7000 is in the past, so one interval is added. -/
theorem getFirstPushMs_scenario :
    getFirstPushMs 60000000000 (fun _ => 7000000000) 1234567 = some 1267000 := by
  decide

/-! ## Configuration: proofs -/

/-- The verdict of `Validate`: no error exactly when the region and the namespace are
non-empty and the interval is at least 1 ms. -/
theorem validate_eq_none_iff (cfg : Config) :
    Validate cfg = none ↔
      cfg.Region ≠ "" ∧ cfg.Namespace ≠ "" ∧ millisecond ≤ cfg.ForceFlushInterval := by
  unfold Validate
  by_cases h1 : cfg.Region = ""
  · simp [h1]
  · by_cases h2 : cfg.Namespace = ""
    · simp [h1, h2]
    · by_cases h3 : cfg.ForceFlushInterval < millisecond
      · simp [h1, h2, h3]
      · simp [h1, h2, h3]
        exact le_of_not_lt h3

/-- C21. `Validate` returns an error for every configuration whose region is empty,
whose namespace is empty, or whose flush interval is below 1 ms, and returns no error
for every configuration that meets all rules of the configuration table. -/
theorem C21_validate (cfg : Config) :
    ((cfg.Region = "" ∨ cfg.Namespace = "" ∨ cfg.ForceFlushInterval < 1000000) →
        ∃ msg, Validate cfg = some msg) ∧
      ((cfg.Region ≠ "" ∧ cfg.Namespace ≠ "" ∧ 1000000 ≤ cfg.ForceFlushInterval ∧
          0 < cfg.MaxDatumsPerCall ∧ 0 < cfg.MaxValuesPerDatum) →
        Validate cfg = none) := by
  constructor
  · intro h
    cases hv : Validate cfg with
    | some msg => exact ⟨msg, rfl⟩
    | none =>
      have := (validate_eq_none_iff cfg).1 hv
      simp only [millisecond] at this
      rcases h with h | h | h
      · exact absurd h this.1
      · exact absurd h this.2.1
      · omega
  · rintro ⟨h1, h2, h3, -, -⟩
    exact (validate_eq_none_iff cfg).2 ⟨h1, h2, by simpa [millisecond] using h3⟩

/-- Witness of C21: an empty namespace is refused, a configuration with the default
limits and an interval of 60 s is accepted. -/
theorem C21_validate_witness :
    (("us-east-1" = "" ∨ "" = "" ∨ (60000000000 : Int) < 1000000) ∧
      ∃ msg, Validate { Region := "us-east-1", Namespace := "", ForceFlushInterval := 60000000000,
                        MaxDatumsPerCall := 1000, MaxValuesPerDatum := 150 } = some msg) ∧
    (("us-east-1" ≠ "" ∧ "N" ≠ "" ∧ (1000000 : Int) ≤ 60000000000 ∧ (0 : Int) < 1000 ∧
        (0 : Int) < 150) ∧
      Validate { Region := "us-east-1", Namespace := "N", ForceFlushInterval := 60000000000,
                 MaxDatumsPerCall := 1000, MaxValuesPerDatum := 150 } = none) :=
  ⟨⟨Or.inr (Or.inl rfl),
      (C21_validate { Region := "us-east-1", Namespace := "", ForceFlushInterval := 60000000000,
                      MaxDatumsPerCall := 1000, MaxValuesPerDatum := 150 }).1
        (Or.inr (Or.inl rfl))⟩,
    ⟨by decide,
      (C21_validate { Region := "us-east-1", Namespace := "N", ForceFlushInterval := 60000000000,
                      MaxDatumsPerCall := 1000, MaxValuesPerDatum := 150 }).2 (by decide)⟩⟩

/-- C22 as stated fails: a configuration with `max_datums_per_call = 0` and
`max_values_per_datum = -1` is accepted by `Validate`. -/
theorem C22_counterexample :
    Validate { Region := "us-east-1", Namespace := "N", ForceFlushInterval := 60000000000,
               MaxDatumsPerCall := 0, MaxValuesPerDatum := -1 } = none := by
  decide

/-- C22, amended. `Validate` does not look at the two limits: its verdict is the same
whatever `max_datums_per_call` and `max_values_per_datum` are, and a configuration
with a non-empty region, a non-empty namespace and an interval of at least 1 ms is
accepted also when a limit is zero or negative. -/
theorem C22_validate_ignores_limits (cfg : Config) (maxDatums maxValues : Int) :
    Validate { cfg with MaxDatumsPerCall := maxDatums, MaxValuesPerDatum := maxValues } =
        Validate cfg ∧
      ((cfg.Region ≠ "" ∧ cfg.Namespace ≠ "" ∧ 1000000 ≤ cfg.ForceFlushInterval) →
        Validate { cfg with MaxDatumsPerCall := maxDatums, MaxValuesPerDatum := maxValues } =
          none) := by
  refine ⟨rfl, ?_⟩
  rintro ⟨h1, h2, h3⟩
  exact (validate_eq_none_iff _).2 ⟨h1, h2, by simpa [millisecond] using h3⟩

/-- Witness of C22 (amended): the limits 0 and -1 in an otherwise valid
configuration. -/
theorem C22_validate_ignores_limits_witness :
    Validate { ({ Region := "us-east-1", Namespace := "N", ForceFlushInterval := 60000000000,
                  MaxDatumsPerCall := 1000, MaxValuesPerDatum := 150 } : Config) with
               MaxDatumsPerCall := 0, MaxValuesPerDatum := -1 } =
        Validate { Region := "us-east-1", Namespace := "N", ForceFlushInterval := 60000000000,
                   MaxDatumsPerCall := 1000, MaxValuesPerDatum := 150 } ∧
    (("us-east-1" ≠ "" ∧ "N" ≠ "" ∧ (1000000 : Int) ≤ 60000000000) ∧
      Validate { ({ Region := "us-east-1", Namespace := "N", ForceFlushInterval := 60000000000,
                    MaxDatumsPerCall := 1000, MaxValuesPerDatum := 150 } : Config) with
                 MaxDatumsPerCall := 0, MaxValuesPerDatum := -1 } = none) :=
  ⟨(C22_validate_ignores_limits
      { Region := "us-east-1", Namespace := "N", ForceFlushInterval := 60000000000,
        MaxDatumsPerCall := 1000, MaxValuesPerDatum := 150 } 0 (-1)).1,
    ⟨by decide,
      (C22_validate_ignores_limits
        { Region := "us-east-1", Namespace := "N", ForceFlushInterval := 60000000000,
          MaxDatumsPerCall := 1000, MaxValuesPerDatum := 150 } 0 (-1)).2 (by decide)⟩⟩

/-! ## Flush controller: the adaptation and the restore -/

/-- The divisor of `getFirstPushMs` is zero exactly for an interval strictly between
-1 ms and 1 ms. -/
theorem milliseconds_eq_zero_iff (interval : Int) :
    Milliseconds interval = 0 ↔ -1000000 < interval ∧ interval < 1000000 := by
  unfold Milliseconds
  rcases le_or_lt 0 interval with h | h
  · rw [Int.tdiv_eq_ediv h (by decide)]
    omega
  · have hneg : Int.tdiv interval 1000000 = -(Int.tdiv (-interval) 1000000) := by
      rw [Int.neg_tdiv, neg_neg]
    rw [hneg, Int.tdiv_eq_ediv (by omega) (by decide)]
    omega

theorem getFirstPushMs_isSome_iff (interval : Int) (publishJitter : Int → Int) (nowMs : Int) :
    (∃ t, getFirstPushMs interval publishJitter nowMs = some t) ↔ Milliseconds interval ≠ 0 := by
  unfold getFirstPushMs
  by_cases h : Milliseconds interval = 0
  · simp [h]
  · simp only [h, if_false]
    constructor
    · intro _; exact h
    · intro _
      split
      · exact ⟨_, rfl⟩
      · exact ⟨_, rfl⟩

/-- C27 as stated fails in its last part: an interval of -5 ms is below 1 ms and its
divisor `interval.Milliseconds()` is -5, not 0. -/
theorem C27_counterexample :
    (-5000000 : Int) < 1000000 ∧ Milliseconds (-5000000) = -5 ∧ Milliseconds (-5000000) ≠ 0 := by
  decide

/-- C27, amended. No division by zero in scheduling: for a configuration accepted by
`Validate` the divisor `interval.Milliseconds()` of the modulus in `getFirstPushMs`
is not zero, and the call that `publish` makes with `ForceFlushInterval` returns a
time, it does not panic. The divisor is 0, and the call panics, exactly for an
interval strictly between -1 ms and 1 ms. -/
theorem C27_no_division_by_zero (cfg : Config) (publishJitter : Int → Int) (nowMs : Int)
    (hvalid : Validate cfg = none) :
    Milliseconds cfg.ForceFlushInterval ≠ 0 ∧
      (∃ t, getFirstPushMs cfg.ForceFlushInterval publishJitter nowMs = some t) ∧
      (∃ s0, publishStart cfg.ForceFlushInterval publishJitter nowMs = some s0) ∧
      ∀ interval : Int,
        (Milliseconds interval = 0 ↔ -1000000 < interval ∧ interval < 1000000) ∧
        (getFirstPushMs interval publishJitter nowMs = none ↔
          -1000000 < interval ∧ interval < 1000000) := by
  have hF := validate_interval cfg hvalid
  have hms : Milliseconds cfg.ForceFlushInterval ≠ 0 := by
    rw [Ne, milliseconds_eq_zero_iff]
    omega
  obtain ⟨t, ht⟩ := (getFirstPushMs_isSome_iff cfg.ForceFlushInterval publishJitter nowMs).2 hms
  refine ⟨hms, ⟨t, ht⟩,
    ⟨{ currentInterval := cfg.ForceFlushInterval, nextMs := t, bufferFullOccurred := false },
      by simp [publishStart, ht]⟩,
    fun interval => ⟨milliseconds_eq_zero_iff interval, ?_⟩⟩
  rw [← milliseconds_eq_zero_iff]
  have hiff := getFirstPushMs_isSome_iff interval publishJitter nowMs
  constructor
  · intro hnone
    by_contra hne
    obtain ⟨t', ht'⟩ := hiff.2 hne
    rw [hnone] at ht'
    cases ht'
  · intro hzero
    cases hget : getFirstPushMs interval publishJitter nowMs with
    | none => rfl
    | some t' => exact absurd hzero (hiff.1 ⟨t', hget⟩)

/-- Witness of C27 (amended): the default interval of 60 s. -/
theorem C27_no_division_by_zero_witness :
    Validate defaultConfig = none ∧
    (Milliseconds defaultConfig.ForceFlushInterval ≠ 0 ∧
      (∃ t, getFirstPushMs defaultConfig.ForceFlushInterval (fun _ => 0) 1234567 = some t) ∧
      (∃ s0, publishStart defaultConfig.ForceFlushInterval (fun _ => 0) 1234567 = some s0) ∧
      ∀ interval : Int,
        (Milliseconds interval = 0 ↔ -1000000 < interval ∧ interval < 1000000) ∧
        (getFirstPushMs interval (fun _ => 0) 1234567 = none ↔
          -1000000 < interval ∧ interval < 1000000)) :=
  ⟨by decide, C27_no_division_by_zero defaultConfig (fun _ => 0) 1234567 (by decide)⟩

/-- What the adaptation does when the batch channel is full and the flag is unset:
with an interval above 1 s it halves the interval, not below 1 s, and halves the
time left to the next wake; with an interval of at most 1 s it only sets the flag. -/
theorem publishAdapt_fires (s : PublishState) (inp : PublishInput)
    (hfull : inp.batchFull = true) (hflag : s.bufferFullOccurred = false) :
    (publishAdapt s inp).bufferFullOccurred = true ∧
      (second < s.currentInterval →
        (publishAdapt s inp).currentInterval = max (s.currentInterval / 2) second ∧
        (publishAdapt s inp).nextMs - inp.nowMs = Int.tdiv (s.nextMs - inp.nowMs) 2) ∧
      (s.currentInterval ≤ second →
        (publishAdapt s inp).currentInterval = s.currentInterval ∧
        (publishAdapt s inp).nextMs = s.nextMs) := by
  unfold publishAdapt
  simp only [hfull, hflag, if_true, Bool.not_false]
  refine ⟨?_, ?_, ?_⟩
  · split <;> rfl
  · intro hgt
    have hgt' : s.currentInterval > second := hgt
    simp only [hgt', if_true]
    have hdiv : Int.tdiv s.currentInterval 2 = s.currentInterval / 2 :=
      Int.tdiv_eq_ediv (by simp only [second] at hgt; omega) (by decide)
    rw [hdiv]
    constructor
    · split
      · rename_i hlt
        rw [max_eq_right (le_of_lt hlt)]
        simp [second]
      · rename_i hge
        rw [max_eq_left (le_of_not_lt hge)]
    · omega
  · intro hle
    have hle' : ¬ s.currentInterval > second := not_lt.2 hle
    simp only [hle', if_false]
    exact ⟨trivial, trivial⟩

/-- The adaptation changes nothing but the flag, and nothing at all when the batch
channel is not full or the flag is already set. -/
theorem publishAdapt_idle (s : PublishState) (inp : PublishInput)
    (h : inp.batchFull = false ∨ s.bufferFullOccurred = true) :
    publishAdapt s inp = s := by
  unfold publishAdapt
  rcases h with h | h
  · simp [h]
  · simp [h]

/-- What a round of `publish` does at the wake check, in terms of the variables
after the adaptation. -/
theorem publishRound_wake (forceFlushInterval : Int) (s : PublishState) (inp : PublishInput)
    (hwake : inp.nowMs ≥ (publishAdapt s inp).nextMs) :
    (publishRound forceFlushInterval s inp).shouldPublish = true ∧
      (publishRound forceFlushInterval s inp).state.bufferFullOccurred = false ∧
      ((publishAdapt s inp).bufferFullOccurred = false →
        (publishRound forceFlushInterval s inp).state.currentInterval = forceFlushInterval ∧
        (publishRound forceFlushInterval s inp).state.nextMs =
          (publishAdapt s inp).nextMs + Milliseconds forceFlushInterval) ∧
      ((publishAdapt s inp).bufferFullOccurred = true →
        (publishRound forceFlushInterval s inp).state.currentInterval =
          (publishAdapt s inp).currentInterval ∧
        (publishRound forceFlushInterval s inp).state.nextMs =
          (publishAdapt s inp).nextMs + Milliseconds (publishAdapt s inp).currentInterval) := by
  unfold publishRound
  simp only [hwake, if_true, decide_True]
  refine ⟨trivial, trivial, ?_, ?_⟩
  · intro hb
    simp [hb]
  · intro hb
    simp [hb]

/-- A round of `publish` that does not reach the wake time leaves the variables as
the adaptation set them. -/
theorem publishRound_no_wake (forceFlushInterval : Int) (s : PublishState) (inp : PublishInput)
    (hwake : ¬ inp.nowMs ≥ (publishAdapt s inp).nextMs) :
    (publishRound forceFlushInterval s inp).shouldPublish = false ∧
      (publishRound forceFlushInterval s inp).state = publishAdapt s inp := by
  unfold publishRound
  simp only [hwake, if_false, decide_False, Bool.false_eq_true]
  exact ⟨trivial, trivial⟩

theorem adaptedInterval_scenario :
    adaptedInterval 60000000000 = 30000000000 ∧
      adaptedInterval 30000000000 = 15000000000 ∧
      adaptedInterval 15000000000 = 7500000000 ∧
      adaptedInterval 7500000000 = 3750000000 ∧
      adaptedInterval 3750000000 = 1875000000 ∧
      adaptedInterval 1875000000 = 1000000000 ∧
      adaptedInterval 1000000000 = 1000000000 := by
  decide

/-- C24 as stated fails: with `currentInterval` at 1 s (where the halving from 60 s
ends) and 1000 ms left to the next wake, a round that finds the batch channel full
and the flag unset leaves the 1000 ms as they are, it does not halve them. -/
theorem C24_counterexample :
    (publishAdapt { currentInterval := 1000000000, nextMs := 1000, bufferFullOccurred := false }
        { nowMs := 0, batchFull := true }).nextMs - 0 = 1000 ∧
      (publishRound 60000000000
        { currentInterval := 1000000000, nextMs := 1000, bufferFullOccurred := false }
        { nowMs := 0, batchFull := true }).state.nextMs - 0 = 1000 ∧
      ¬ (publishAdapt { currentInterval := 1000000000, nextMs := 1000, bufferFullOccurred := false }
        { nowMs := 0, batchFull := true }).nextMs - 0 = Int.tdiv (1000 - 0) 2 := by
  decide

theorem publishRound_interval_of_flag (forceFlushInterval : Int) (s : PublishState)
    (inp : PublishInput) (hflag : (publishAdapt s inp).bufferFullOccurred = true) :
    (publishRound forceFlushInterval s inp).state.currentInterval =
      (publishAdapt s inp).currentInterval := by
  by_cases hwake : inp.nowMs ≥ (publishAdapt s inp).nextMs
  · exact ((publishRound_wake forceFlushInterval s inp hwake).2.2.2 hflag).1
  · rw [(publishRound_no_wake forceFlushInterval s inp hwake).2]

/-- C24, amended. Adaptive halving step: in a round of `publish` that finds the batch
channel full with the flag unset, the adaptation (before the wake check) sets the
flag; when `currentInterval` is above 1 s it sets `currentInterval` to
`max(currentInterval / 2, 1 s)` and halves the time left to the next wake,
`nextMs - nowMs` (integer division, truncated toward zero); when `currentInterval`
is at most 1 s it changes neither `currentInterval` nor `nextMs`. `currentInterval`
keeps that value to the end of the round. If the wake time is not reached after the
adaptation (`nowMs < nextMs`), the round does not publish and ends with that `nextMs`
and the flag set; if it is reached, the wake block of the same round publishes,
advances `nextMs` by `currentInterval` in milliseconds and resets the flag. From
60 s the adaptations give 30 s, 15 s, 7.5 s, 3.75 s, 1.875 s, then 1 s, and 1 s
stays. -/
theorem C24_adaptive_halving (forceFlushInterval : Int) (s : PublishState) (inp : PublishInput)
    (hfull : inp.batchFull = true) (hflag : s.bufferFullOccurred = false) :
    (publishAdapt s inp).bufferFullOccurred = true ∧
      (second < s.currentInterval →
        (publishAdapt s inp).currentInterval = max (s.currentInterval / 2) second ∧
        (publishAdapt s inp).nextMs - inp.nowMs = Int.tdiv (s.nextMs - inp.nowMs) 2) ∧
      (s.currentInterval ≤ second →
        (publishAdapt s inp).currentInterval = s.currentInterval ∧
        (publishAdapt s inp).nextMs = s.nextMs) ∧
      (publishRound forceFlushInterval s inp).state.currentInterval =
        (publishAdapt s inp).currentInterval ∧
      (inp.nowMs < (publishAdapt s inp).nextMs →
        (publishRound forceFlushInterval s inp).shouldPublish = false ∧
        (publishRound forceFlushInterval s inp).state.nextMs = (publishAdapt s inp).nextMs ∧
        (publishRound forceFlushInterval s inp).state.bufferFullOccurred = true) ∧
      (inp.nowMs ≥ (publishAdapt s inp).nextMs →
        (publishRound forceFlushInterval s inp).shouldPublish = true ∧
        (publishRound forceFlushInterval s inp).state.nextMs =
          (publishAdapt s inp).nextMs + Milliseconds (publishAdapt s inp).currentInterval ∧
        (publishRound forceFlushInterval s inp).state.bufferFullOccurred = false) ∧
      (adaptedInterval 60000000000 = 30000000000 ∧
        adaptedInterval 30000000000 = 15000000000 ∧
        adaptedInterval 15000000000 = 7500000000 ∧
        adaptedInterval 7500000000 = 3750000000 ∧
        adaptedInterval 3750000000 = 1875000000 ∧
        adaptedInterval 1875000000 = 1000000000 ∧
        adaptedInterval 1000000000 = 1000000000) := by
  have h := publishAdapt_fires s inp hfull hflag
  refine ⟨h.1, h.2.1, h.2.2, publishRound_interval_of_flag forceFlushInterval s inp h.1,
    fun hlt => ?_, fun hge => ?_, adaptedInterval_scenario⟩
  · have hq := publishRound_no_wake forceFlushInterval s inp (not_le.2 hlt)
    refine ⟨hq.1, ?_, ?_⟩
    · rw [hq.2]
    · rw [hq.2]; exact h.1
  · have hw := publishRound_wake forceFlushInterval s inp hge
    exact ⟨hw.1, (hw.2.2.2 h.1).2, hw.2.1⟩

/-- Witness of C24 (amended): from 1.875 s at time 5000 ms, with 1001 ms left, the
interval becomes 1 s, 500 ms are left, and the round does not publish. -/
theorem C24_adaptive_halving_witness :
    halvingInput.batchFull = true ∧ halvingState.bufferFullOccurred = false ∧
    ((publishAdapt halvingState halvingInput).bufferFullOccurred = true ∧
      (second < halvingState.currentInterval →
        (publishAdapt halvingState halvingInput).currentInterval =
          max (halvingState.currentInterval / 2) second ∧
        (publishAdapt halvingState halvingInput).nextMs - halvingInput.nowMs =
          Int.tdiv (halvingState.nextMs - halvingInput.nowMs) 2) ∧
      (halvingState.currentInterval ≤ second →
        (publishAdapt halvingState halvingInput).currentInterval =
          halvingState.currentInterval ∧
        (publishAdapt halvingState halvingInput).nextMs = halvingState.nextMs) ∧
      (publishRound 60000000000 halvingState halvingInput).state.currentInterval =
        (publishAdapt halvingState halvingInput).currentInterval ∧
      (halvingInput.nowMs < (publishAdapt halvingState halvingInput).nextMs →
        (publishRound 60000000000 halvingState halvingInput).shouldPublish = false ∧
        (publishRound 60000000000 halvingState halvingInput).state.nextMs =
          (publishAdapt halvingState halvingInput).nextMs ∧
        (publishRound 60000000000 halvingState halvingInput).state.bufferFullOccurred = true) ∧
      (halvingInput.nowMs ≥ (publishAdapt halvingState halvingInput).nextMs →
        (publishRound 60000000000 halvingState halvingInput).shouldPublish = true ∧
        (publishRound 60000000000 halvingState halvingInput).state.nextMs =
          (publishAdapt halvingState halvingInput).nextMs +
            Milliseconds (publishAdapt halvingState halvingInput).currentInterval ∧
        (publishRound 60000000000 halvingState halvingInput).state.bufferFullOccurred = false) ∧
      (adaptedInterval 60000000000 = 30000000000 ∧
        adaptedInterval 30000000000 = 15000000000 ∧
        adaptedInterval 15000000000 = 7500000000 ∧
        adaptedInterval 7500000000 = 3750000000 ∧
        adaptedInterval 3750000000 = 1875000000 ∧
        adaptedInterval 1875000000 = 1000000000 ∧
        adaptedInterval 1000000000 = 1000000000)) :=
  ⟨rfl, rfl, C24_adaptive_halving 60000000000 halvingState halvingInput rfl rfl⟩

/-- The round of the witness, evaluated: the interval is 1 s, the next wake is at
5500 ms, the flag is set, nothing is published. At the floor of 1 s with the wake
time reached (next wake at 1000 ms, time 2000 ms) the adaptation only sets the flag,
and the wake block advances the next wake by 1000 ms to 2000 ms and resets the
flag. -/
theorem publishRound_halving_scenario :
    (publishRound 60000000000 halvingState halvingInput).state =
        { currentInterval := 1000000000, nextMs := 5500, bufferFullOccurred := true } ∧
      (publishRound 60000000000 halvingState halvingInput).shouldPublish = false ∧
      (publishRound 60000000000
        { currentInterval := 1000000000, nextMs := 1000, bufferFullOccurred := false }
        { nowMs := 2000, batchFull := true }).state =
        { currentInterval := 1000000000, nextMs := 2000, bufferFullOccurred := false } ∧
      (publishRound 60000000000
        { currentInterval := 1000000000, nextMs := 1000, bufferFullOccurred := false }
        { nowMs := 2000, batchFull := true }).shouldPublish = true := by
  decide

/-- C25. Interval restore: in a round of `publish` that reaches the wake time
(`nowMs ≥ nextMs` at the check), when the batch channel was not seen full since the
previous publish (the flag is unset and the channel is not full in this round),
`currentInterval` becomes `ForceFlushInterval` and `nextMs` advances by
`ForceFlushInterval` in milliseconds; when it was seen full, `currentInterval`
keeps the value the adaptation left and `nextMs` advances by that value. -/
theorem C25_interval_restore (forceFlushInterval : Int) (s : PublishState) (inp : PublishInput)
    (hwake : inp.nowMs ≥ (publishAdapt s inp).nextMs) :
    ((s.bufferFullOccurred = false ∧ inp.batchFull = false) →
        (publishRound forceFlushInterval s inp).state.currentInterval = forceFlushInterval ∧
        (publishRound forceFlushInterval s inp).state.nextMs =
          s.nextMs + Milliseconds forceFlushInterval) ∧
      ((s.bufferFullOccurred = true ∨ inp.batchFull = true) →
        (publishRound forceFlushInterval s inp).state.currentInterval =
          (publishAdapt s inp).currentInterval ∧
        (publishRound forceFlushInterval s inp).state.nextMs =
          (publishAdapt s inp).nextMs + Milliseconds (publishAdapt s inp).currentInterval) := by
  have h := publishRound_wake forceFlushInterval s inp hwake
  constructor
  · rintro ⟨hflag, hfull⟩
    have hidle := publishAdapt_idle s inp (Or.inl hfull)
    have := h.2.2.1 (by rw [hidle]; exact hflag)
    rw [hidle] at this
    exact this
  · intro hseen
    apply h.2.2.2
    cases hflag : s.bufferFullOccurred with
    | true =>
      rw [publishAdapt_idle s inp (Or.inr hflag)]
      exact hflag
    | false =>
      rcases hseen with hs | hfull
      · rw [hflag] at hs; cases hs
      · exact (publishAdapt_fires s inp hfull hflag).1

/-- Witness of C25: a wake after a quiet cycle restores 60 s from 15 s. -/
theorem C25_interval_restore_witness :
    ({ nowMs := 7000, batchFull := false } : PublishInput).nowMs ≥
      (publishAdapt { currentInterval := 15000000000, nextMs := 6001, bufferFullOccurred := false }
        { nowMs := 7000, batchFull := false }).nextMs ∧
    (({ currentInterval := 15000000000, nextMs := 6001, bufferFullOccurred := false } :
        PublishState).bufferFullOccurred = false ∧
      ({ nowMs := 7000, batchFull := false } : PublishInput).batchFull = false) ∧
    ((publishRound 60000000000
        { currentInterval := 15000000000, nextMs := 6001, bufferFullOccurred := false }
        { nowMs := 7000, batchFull := false }).state.currentInterval = 60000000000 ∧
      (publishRound 60000000000
        { currentInterval := 15000000000, nextMs := 6001, bufferFullOccurred := false }
        { nowMs := 7000, batchFull := false }).state.nextMs =
        ({ currentInterval := 15000000000, nextMs := 6001, bufferFullOccurred := false } :
          PublishState).nextMs + Milliseconds 60000000000) :=
  ⟨by decide, ⟨rfl, rfl⟩,
    (C25_interval_restore 60000000000
      { currentInterval := 15000000000, nextMs := 6001, bufferFullOccurred := false }
      { nowMs := 7000, batchFull := false } (by decide)).1 ⟨rfl, rfl⟩⟩

/-! ## Flush controller: one adaptation per cycle -/

theorem halved_flag (s : PublishState) (inp : PublishInput) (h : halved s inp = true) :
    (publishAdapt s inp).bufferFullOccurred = true := by
  cases hfull : inp.batchFull with
  | false =>
    have := publishAdapt_idle s inp (Or.inl hfull)
    simp [halved, this] at h
  | true =>
    cases hflag : s.bufferFullOccurred with
    | true =>
      have := publishAdapt_idle s inp (Or.inr hflag)
      simp [halved, this] at h
    | false => exact (publishAdapt_fires s inp hfull hflag).1

theorem not_halved_of_flag (s : PublishState) (inp : PublishInput)
    (h : s.bufferFullOccurred = true) : halved s inp = false := by
  have := publishAdapt_idle s inp (Or.inr h)
  simp [halved, this]

theorem publishRound_quiet (forceFlushInterval : Int) (s : PublishState) (inp : PublishInput)
    (h : (publishRound forceFlushInterval s inp).shouldPublish = false) :
    (publishRound forceFlushInterval s inp).state = publishAdapt s inp := by
  by_cases hwake : inp.nowMs ≥ (publishAdapt s inp).nextMs
  · have := (publishRound_wake forceFlushInterval s inp hwake).1
    rw [h] at this
    cases this
  · exact (publishRound_no_wake forceFlushInterval s inp hwake).2

theorem halvings_cons (forceFlushInterval : Int) (s : PublishState) (inp : PublishInput)
    (rest : List PublishInput) :
    halvings forceFlushInterval s (inp :: rest) =
      (if halved s inp then 1 else 0) +
        halvings forceFlushInterval (publishRound forceFlushInterval s inp).state rest := rfl

/-- Once the flag is set, no round halves until a round publishes. -/
theorem halvings_of_flag (forceFlushInterval : Int) (last : PublishInput) :
    ∀ (pre : List PublishInput) (s : PublishState), s.bufferFullOccurred = true →
      noPublish forceFlushInterval s pre = true →
      halvings forceFlushInterval s (pre ++ [last]) = 0 := by
  intro pre
  induction pre with
  | nil =>
    intro s hflag _
    simp [halvings, not_halved_of_flag s last hflag]
  | cons inp rest ih =>
    intro s hflag hquiet
    simp only [noPublish, Bool.and_eq_true, Bool.not_eq_true'] at hquiet
    have hstate := publishRound_quiet forceFlushInterval s inp hquiet.1
    have hidle := publishAdapt_idle s inp (Or.inr hflag)
    rw [List.cons_append, halvings_cons, not_halved_of_flag s inp hflag,
      ih _ (by rw [hstate, hidle]; exact hflag) hquiet.2]
    simp

/-- Over rounds of which only the last may publish, at most one round halves. -/
theorem halvings_le_one (forceFlushInterval : Int) (last : PublishInput) :
    ∀ (pre : List PublishInput) (s : PublishState),
      noPublish forceFlushInterval s pre = true →
      halvings forceFlushInterval s (pre ++ [last]) ≤ 1 := by
  intro pre
  induction pre with
  | nil =>
    intro s _
    simp only [List.nil_append, halvings]
    split <;> simp
  | cons inp rest ih =>
    intro s hquiet
    simp only [noPublish, Bool.and_eq_true, Bool.not_eq_true'] at hquiet
    have hstate := publishRound_quiet forceFlushInterval s inp hquiet.1
    rw [List.cons_append, halvings_cons]
    cases hh : halved s inp with
    | true =>
      have hflag := halved_flag s inp hh
      rw [halvings_of_flag forceFlushInterval last rest _ (by rw [hstate]; exact hflag) hquiet.2]
      simp
    | false =>
      have := ih _ hquiet.2
      simp only [Bool.false_eq_true, if_false, Nat.zero_add]
      exact this

/-- C26. The adaptation fires at most once per publish cycle: over the rounds of
`publish` from one call of `pushMetricDatumBatch` up to and including the round of
the next call, at most one round changes `currentInterval` or the time of the next
wake by the adaptation, however many of them find the batch channel full. -/
theorem C26_one_adaptation_per_cycle (forceFlushInterval : Int) (s : PublishState)
    (pre : List PublishInput) (last : PublishInput)
    (hquiet : noPublish forceFlushInterval s pre = true) :
    halvings forceFlushInterval s (pre ++ [last]) ≤ 1 ∧
      halvings forceFlushInterval s pre ≤ 1 := by
  refine ⟨halvings_le_one forceFlushInterval last pre s hquiet, ?_⟩
  rcases List.eq_nil_or_concat pre with h | ⟨init, l, h⟩
  · subst h; simp [halvings]
  · subst h
    rw [List.concat_eq_append] at hquiet ⊢
    have hq : noPublish forceFlushInterval s init = true := by
      clear * - hquiet
      induction init generalizing s with
      | nil => rfl
      | cons inp rest ih =>
        simp only [List.cons_append, noPublish, Bool.and_eq_true, Bool.not_eq_true'] at hquiet ⊢
        exact ⟨hquiet.1, ih _ hquiet.2⟩
    exact halvings_le_one forceFlushInterval l init s hq

/-- Witness of C26: three rounds that find the channel full, the next wake far away,
then the round that publishes; only the first round halves. -/
theorem C26_one_adaptation_per_cycle_witness :
    noPublish 60000000000
        { currentInterval := 60000000000, nextMs := 100000, bufferFullOccurred := false }
        [{ nowMs := 0, batchFull := true }, { nowMs := 1000, batchFull := true },
          { nowMs := 2000, batchFull := true }] = true ∧
    (halvings 60000000000
        { currentInterval := 60000000000, nextMs := 100000, bufferFullOccurred := false }
        ([{ nowMs := 0, batchFull := true }, { nowMs := 1000, batchFull := true },
          { nowMs := 2000, batchFull := true }] ++ [{ nowMs := 50000, batchFull := true }]) ≤ 1 ∧
      halvings 60000000000
        { currentInterval := 60000000000, nextMs := 100000, bufferFullOccurred := false }
        [{ nowMs := 0, batchFull := true }, { nowMs := 1000, batchFull := true },
          { nowMs := 2000, batchFull := true }] ≤ 1) :=
  ⟨by decide,
    C26_one_adaptation_per_cycle 60000000000
      { currentInterval := 60000000000, nextMs := 100000, bufferFullOccurred := false }
      [{ nowMs := 0, batchFull := true }, { nowMs := 1000, batchFull := true },
        { nowMs := 2000, batchFull := true }] { nowMs := 50000, batchFull := true } (by decide)⟩

/-! ## Retry counter: proofs -/

/-- When no attempt succeeds, the loop of `WriteToCloudWatch` adds one to the retry
counter for each sleep. -/
theorem writeLoop_retries (svc : Nat → PutMetricDataResult) (publishJitter : Nat → Int → Int) :
    ∀ (left i : Nat) (s : WriteResult),
      (∀ j, i ≤ j → j < i + left → svc j ≠ .success) →
      (writeLoop svc publishJitter left i s).retries + s.sleeps.length =
        s.retries + (writeLoop svc publishJitter left i s).sleeps.length := by
  intro left
  induction left with
  | zero => intro i s _; simp [writeLoop]
  | succ left ih =>
    intro i s hfail
    have hi := hfail i (le_refl i) (by omega)
    rw [writeLoop]
    cases hsvc : svc i with
    | success => exact absurd hsvc hi
    | otherCode c => simp [backoffStep, backoffSleep_retries]; omega
    | notAwsErr =>
      have h := ih (i + 1) (backoffStep (publishJitter i) { s with attempts := s.attempts + 1 })
        (fun j hj hlt => hfail j (by omega) (by omega))
      simp only [backoffStep, backoffSleep_retries, List.length_append,
        List.length_singleton] at h ⊢
      omega
    | limitExceededFault =>
      have h := ih (i + 1) (backoffStep (publishJitter i) { s with attempts := s.attempts + 1 })
        (fun j hj hlt => hfail j (by omega) (by omega))
      simp only [backoffStep, backoffSleep_retries, List.length_append,
        List.length_singleton] at h ⊢
      omega
    | internalServiceFault =>
      have h := ih (i + 1) (backoffStep (publishJitter i) { s with attempts := s.attempts + 1 })
        (fun j hj hlt => hfail j (by omega) (by omega))
      simp only [backoffStep, backoffSleep_retries, List.length_append,
        List.length_singleton] at h ⊢
      omega

/-- When the first attempt fails, the first sleep of `WriteToCloudWatch` is the
backoff computed from the retry counter at the call. -/
theorem writeToCloudWatch_first_sleep (svc : Nat → PutMetricDataResult)
    (publishJitter : Nat → Int → Int) (retries : Nat) (hfail : svc 0 ≠ .success) :
    (WriteToCloudWatch svc publishJitter retries).sleeps.head? =
      some (backoffSleep (publishJitter 0) retries).1 := by
  have hA : WriteToCloudWatch svc publishJitter retries =
      writeLoop svc publishJitter (4 + 1) 0
        { retries := retries, attempts := 0, sleeps := [], failed := false } := rfl
  rw [hA, writeLoop]
  have hpre := writeLoop_sleeps_prefix svc publishJitter 4 (0 + 1)
    (backoffStep (publishJitter 0)
      { retries := retries, attempts := 0 + 1, sleeps := [], failed := false })
  cases hsvc : svc 0 with
  | success => exact absurd hsvc hfail
  | otherCode c => simp [backoffStep]
  | notAwsErr =>
    obtain ⟨l, hl⟩ := hpre
    simp only [hl]
    simp [backoffStep]
  | limitExceededFault =>
    obtain ⟨l, hl⟩ := hpre
    simp only [hl]
    simp [backoffStep]
  | internalServiceFault =>
    obtain ⟨l, hl⟩ := hpre
    simp only [hl]
    simp [backoffStep]

/-- C28. The retry counter is carried over: after a call of `WriteToCloudWatch` in
which no attempt succeeds, the counter is its value before the call plus the number
of sleeps of the call, and the first backoff of the next call, if its first attempt
fails, is computed from that count. -/
theorem C28_retry_counter_carried (svc : Nat → PutMetricDataResult)
    (publishJitter : Nat → Int → Int) (retries : Nat)
    (hfail : ∀ i, i < defaultRetryCount → svc i ≠ .success) :
    (WriteToCloudWatch svc publishJitter retries).retries =
        retries + (WriteToCloudWatch svc publishJitter retries).sleeps.length ∧
      0 < (WriteToCloudWatch svc publishJitter retries).sleeps.length ∧
      ∀ (svc' : Nat → PutMetricDataResult) (publishJitter' : Nat → Int → Int),
        svc' 0 ≠ .success →
        (WriteToCloudWatch svc' publishJitter'
            (WriteToCloudWatch svc publishJitter retries).retries).sleeps.head? =
          some (backoffSleep (publishJitter' 0)
            (retries + (WriteToCloudWatch svc publishJitter retries).sleeps.length)).1 := by
  have h := writeLoop_retries svc publishJitter defaultRetryCount 0
    { retries := retries, attempts := 0, sleeps := [], failed := false }
    (fun j _ hlt => hfail j (by omega))
  have hret : (WriteToCloudWatch svc publishJitter retries).retries =
      retries + (WriteToCloudWatch svc publishJitter retries).sleeps.length := by
    simpa [WriteToCloudWatch] using h
  have hfirst := writeToCloudWatch_first_sleep svc publishJitter retries
    (hfail 0 (by decide))
  refine ⟨hret, ?_, ?_⟩
  · cases hs : (WriteToCloudWatch svc publishJitter retries).sleeps with
    | nil => rw [hs] at hfirst; cases hfirst
    | cons a l => simp
  · intro svc' publishJitter' hfail'
    rw [writeToCloudWatch_first_sleep svc' publishJitter' _ hfail', hret]

/-- Witness of C28: every attempt is throttled, starting from a counter of 2. -/
theorem C28_retry_counter_carried_witness :
    (∀ i : Nat, i < defaultRetryCount →
      (fun _ => PutMetricDataResult.limitExceededFault) i ≠ PutMetricDataResult.success) ∧
    ((WriteToCloudWatch (fun _ => PutMetricDataResult.limitExceededFault) (fun _ _ => 0) 2).retries =
        2 + (WriteToCloudWatch (fun _ => PutMetricDataResult.limitExceededFault)
          (fun _ _ => 0) 2).sleeps.length ∧
      0 < (WriteToCloudWatch (fun _ => PutMetricDataResult.limitExceededFault)
        (fun _ _ => 0) 2).sleeps.length ∧
      ∀ (svc' : Nat → PutMetricDataResult) (publishJitter' : Nat → Int → Int),
        svc' 0 ≠ .success →
        (WriteToCloudWatch svc' publishJitter'
            (WriteToCloudWatch (fun _ => PutMetricDataResult.limitExceededFault)
              (fun _ _ => 0) 2).retries).sleeps.head? =
          some (backoffSleep (publishJitter' 0)
            (2 + (WriteToCloudWatch (fun _ => PutMetricDataResult.limitExceededFault)
              (fun _ _ => 0) 2).sleeps.length)).1) :=
  ⟨(fun _ _ h => nomatch h),
    C28_retry_counter_carried (fun _ => PutMetricDataResult.limitExceededFault) (fun _ _ => 0) 2
      (fun _ _ h => nomatch h)⟩

/-- The carried-over counter at work: after a call in which all 5 attempts are
throttled, the counter is 5, and a second such call sleeps 3.2 s and then four times
30 s, instead of starting again at 100 ms. -/
theorem writeToCloudWatch_carry_scenario :
    WriteToCloudWatch (fun _ => PutMetricDataResult.limitExceededFault) (fun _ _ => 0) 0 =
        { retries := 5, attempts := 5,
          sleeps := [100000000, 200000000, 400000000, 800000000, 1600000000], failed := true } ∧
      WriteToCloudWatch (fun _ => PutMetricDataResult.limitExceededFault) (fun _ _ => 0) 5 =
        { retries := 10, attempts := 5,
          sleeps := [3200000000, 30000000000, 30000000000, 30000000000, 30000000000],
          failed := true } := by
  decide

/-! ## Shutdown: proofs -/

/-- An action of a worker keeps the datums of the pipeline in order; only a datum
queued by `ConsumeMetrics` is added, at the end. -/
theorem datums_step {δ : Type} (payload : δ → Int) (forceFlushInterval : Int)
    (p : Pipeline δ) (ev : PipelineEvent δ) :
    ∃ l, (pipelineStep payload forceFlushInterval p ev).datums = p.datums ++ l := by
  cases ev with
  | enqueue d => exact ⟨[d], by simp [pipelineStep, Pipeline.datums]⟩
  | receive now =>
    cases hmc : p.metricChan with
    | nil => exact ⟨[], by simp [pipelineStep, hmc]⟩
    | cons d rest =>
      refine ⟨[], ?_⟩
      simp only [pipelineStep, hmc, Pipeline.datums, List.append_nil]
      rw [flatten_step]
      simp [received]
  | tick now clearNow =>
    refine ⟨[], ?_⟩
    simp only [pipelineStep, Pipeline.datums, List.append_nil]
    rw [flatten_step]
    simp [received]
  | drain => exact ⟨[], by simp [pipelineStep, Pipeline.datums]⟩

theorem mem_datums_run {δ : Type} (payload : δ → Int) (forceFlushInterval : Int) (x : δ) :
    ∀ (events : List (PipelineEvent δ)) (p : Pipeline δ), x ∈ p.datums →
      x ∈ (pipelineRun payload forceFlushInterval p events).datums := by
  intro events
  induction events with
  | nil => intro p h; exact h
  | cons ev rest ih =>
    intro p h
    obtain ⟨l, hl⟩ := datums_step payload forceFlushInterval p ev
    exact ih _ (by rw [hl]; exact List.mem_append_left _ h)

theorem mem_datums_shutdownWait {δ : Type} (payload : δ → Int) (forceFlushInterval : Int)
    (work : Nat → List (PipelineEvent δ)) (x : δ) :
    ∀ (left i : Nat) (p : Pipeline δ), x ∈ p.datums →
      x ∈ (shutdownWait payload forceFlushInterval work left i p).datums := by
  intro left
  induction left with
  | zero => intro i p h; exact h
  | succ left ih =>
    intro i p h
    rw [shutdownWait]
    split
    · exact h
    · exact ih _ _ (mem_datums_run payload forceFlushInterval x _ p h)

/-- When `Shutdown` closes the shutdown signal with both channels empty, every datum
that was queued at its start is in a published batch or in the batch the accumulator
holds. -/
theorem shutdown_datums {δ : Type} (payload : δ → Int) (forceFlushInterval : Int)
    (work : Nat → List (PipelineEvent δ)) (p : Pipeline δ)
    (hmc : (Shutdown payload forceFlushInterval work p).metricChan = [])
    (hbc : (Shutdown payload forceFlushInterval work p).datumBatchChanLen = 0) :
    ∀ d ∈ p.metricChan,
      d ∈ (Shutdown payload forceFlushInterval work p).publishedBatches.flatten ∨
      d ∈ (Shutdown payload forceFlushInterval work p).accumulator.metricDatumBatch.Partition := by
  intro d hd
  have hmem : d ∈ (Shutdown payload forceFlushInterval work p).datums :=
    mem_datums_shutdownWait payload forceFlushInterval work d 5 0 p
      (by simp only [Pipeline.datums]; exact List.mem_append_right _ hd)
  generalize Shutdown payload forceFlushInterval work p = f at hmc hbc hmem ⊢
  have hall : f.publishedBatches = sentBatches f.accumulator := by
    unfold Pipeline.publishedBatches
    apply List.take_of_length_le
    simp only [Pipeline.datumBatchChanLen] at hbc
    simp only [sentBatches, List.length_map]
    omega
  rw [hall]
  simp only [Pipeline.datums, hmc, List.append_nil, List.mem_append] at hmem
  exact hmem

set_option maxRecDepth 20000 in
/-- C23 as stated fails: in the drain scenario (50 datums queued, a fresh batch,
`MaxDatumsPerCall = 1000`) the accumulator empties `metricChan` during the first
sleep, both channels are empty at the next poll and `Shutdown` closes the shutdown
signal; no batch was handed to the publisher, the 50 datums are in the batch that
the accumulator holds and drops when it returns. -/
theorem C23_counterexample :
    drainScenarioEnd.metricChan = [] ∧ drainScenarioEnd.datumBatchChanLen = 0 ∧
      drainScenarioEnd.publishedBatches = [] ∧
      drainScenarioEnd.accumulator.metricDatumBatch.Partition = drainScenario.metricChan ∧
      drainScenario.metricChan.length = 50 ∧
      ¬ ∀ d ∈ drainScenario.metricChan, d ∈ drainScenarioEnd.publishedBatches.flatten := by
  decide

/-- C23, amended. In every execution in which both channels are empty when
`Shutdown` closes the shutdown signal, every datum that was in `metricChan` when
`Shutdown` began has been handed to the publisher or is in the batch that the
accumulator holds at that moment; that batch is not sent. -/
theorem C23_drain_up_to_held_batch {δ : Type} (payload : δ → Int) (forceFlushInterval : Int)
    (work : Nat → List (PipelineEvent δ)) (p : Pipeline δ)
    (hmc : (Shutdown payload forceFlushInterval work p).metricChan = [])
    (hbc : (Shutdown payload forceFlushInterval work p).datumBatchChanLen = 0) :
    ∀ d ∈ p.metricChan,
      d ∈ (Shutdown payload forceFlushInterval work p).publishedBatches.flatten ∨
      d ∈ (Shutdown payload forceFlushInterval work p).accumulator.metricDatumBatch.Partition :=
  shutdown_datums payload forceFlushInterval work p hmc hbc

/-- Witness of C23 (amended): three datums queued with `MaxDatumsPerCall = 2`; during
the first sleep the accumulator receives them and `publish` drains the batch channel.
The first datum is in the published batch (the third one is in the held batch). -/
theorem C23_drain_up_to_held_batch_witness :
    (Shutdown (fun _ : Nat => (100 : Int)) 60000000000
        (fun i => if i = 0 then
          [PipelineEvent.receive 1, PipelineEvent.receive 2, PipelineEvent.receive 3,
            PipelineEvent.drain] else [])
        { metricChan := [7, 8, 9], accumulator := startRoutines 2 100 0,
          published := 0 }).metricChan = [] ∧
    (Shutdown (fun _ : Nat => (100 : Int)) 60000000000
        (fun i => if i = 0 then
          [PipelineEvent.receive 1, PipelineEvent.receive 2, PipelineEvent.receive 3,
            PipelineEvent.drain] else [])
        { metricChan := [7, 8, 9], accumulator := startRoutines 2 100 0,
          published := 0 }).datumBatchChanLen = 0 ∧
    (7 : Nat) ∈ ({ metricChan := [7, 8, 9], accumulator := startRoutines 2 100 0,
                   published := 0 } : Pipeline Nat).metricChan ∧
    ((7 : Nat) ∈ (Shutdown (fun _ : Nat => (100 : Int)) 60000000000
        (fun i => if i = 0 then
          [PipelineEvent.receive 1, PipelineEvent.receive 2, PipelineEvent.receive 3,
            PipelineEvent.drain] else [])
        { metricChan := [7, 8, 9], accumulator := startRoutines 2 100 0,
          published := 0 }).publishedBatches.flatten ∨
      (7 : Nat) ∈ (Shutdown (fun _ : Nat => (100 : Int)) 60000000000
        (fun i => if i = 0 then
          [PipelineEvent.receive 1, PipelineEvent.receive 2, PipelineEvent.receive 3,
            PipelineEvent.drain] else [])
        { metricChan := [7, 8, 9], accumulator := startRoutines 2 100 0,
          published := 0 }).accumulator.metricDatumBatch.Partition) :=
  ⟨by decide, by decide, by decide,
    C23_drain_up_to_held_batch (fun _ : Nat => (100 : Int)) 60000000000
      (fun i => if i = 0 then
        [PipelineEvent.receive 1, PipelineEvent.receive 2, PipelineEvent.receive 3,
          PipelineEvent.drain] else [])
      { metricChan := [7, 8, 9], accumulator := startRoutines 2 100 0, published := 0 }
      (by decide) (by decide) 7 (by decide)⟩

end CloudWatch
